import Mathlib

/-!
Verification of the ActivityMonitor activity classification and aggregation
pipeline.  The Lean definitions below are a shallow embedding of the Python
source files `src/database.py`, `src/project_mapper.py` and
`src/activity_monitor.py`: the SQLite tables are modelled as Lean lists of
rows, SQL queries as list transformations, and the string-heavy classifier
heuristics as executable functions over Lean strings.  Timestamps are kept as
strings and compared with the byte-wise (SQLite BINARY collation) order, which
is what the stored `'%Y-%m-%d %H:%M:%S'` strings are compared with in the
`WHERE timestamp >= ? AND timestamp < ?` clauses.
-/

/-! ## Generic string and list utilities used by the embedding -/

/-- Byte-wise lexicographic strict order on character lists.  SQLite's BINARY
collation compares the UTF-8 bytes with memcmp, which on these all-ASCII
timestamp strings coincides with code-point lexicographic order. -/
def lexLt : List Char → List Char → Bool
  | _, [] => false
  | [], _ :: _ => true
  | a :: as, b :: bs => a.toNat < b.toNat || (a = b && lexLt as bs)

/-- Strict order on strings, modelling SQLite's `<` on TEXT values. -/
def strLtB (a b : String) : Bool := lexLt a.data b.data

/-- Does `pat` occur as a prefix of `l`? -/
def listStarts : List Char → List Char → Bool
  | [], _ => true
  | _ :: _, [] => false
  | a :: as, b :: bs => a = b && listStarts as bs

/-- Does `pat` occur as a contiguous sublist of `l`?  (The empty pattern
occurs in every list, matching Python's `'' in s == True`.) -/
def listInfix (pat : List Char) : List Char → Bool
  | [] => pat.isEmpty
  | c :: rest => listStarts pat (c :: rest) || listInfix pat rest

/-- Python's `needle in hay` substring test (on the raw characters). -/
def inStr (needle hay : String) : Bool := listInfix needle.data hay.data

/-- Python's `str.lower()` (ASCII range, which is all the stored rule and
label data exercises), implemented structurally so that concrete instances
reduce inside the kernel. -/
def lowerStr (s : String) : String := String.mk (s.data.map Char.toLower)

/-- Insert an element into a list sorted by `le` (insertion step of a stable
insertion sort, used to model SQL `ORDER BY`). -/
def insertBy (le : α → α → Bool) (x : α) : List α → List α
  | [] => [x]
  | y :: ys => if le x y then x :: y :: ys else y :: insertBy le x ys

/-- Stable insertion sort, used to model SQL `ORDER BY` clauses.  SQLite does
not promise any particular order for ties, so any deterministic model is
admissible; claims proved below never depend on tie order. -/
def sortBy (le : α → α → Bool) (l : List α) : List α := l.foldr (insertBy le) []

theorem insertBy_perm (le : α → α → Bool) (x : α) (l : List α) :
    List.Perm (insertBy le x l) (x :: l) := by
  induction l with
  | nil => simp [insertBy]
  | cons y ys ih =>
    simp only [insertBy]
    split
    · exact List.Perm.refl _
    · exact List.Perm.trans (List.Perm.cons y ih) (List.Perm.swap x y ys)

theorem sortBy_perm (le : α → α → Bool) (l : List α) :
    List.Perm (sortBy le l) l := by
  induction l with
  | nil => exact List.Perm.refl _
  | cons x xs ih =>
    simpa [sortBy] using
      List.Perm.trans (insertBy_perm le x (sortBy le xs)) (List.Perm.cons x ih)

/-! ## Dates and timestamp strings

The recorder stores `datetime.now().strftime('%Y-%m-%d %H:%M:%S')`; the daily
queries compute `start = date.replace(hour=0, minute=0, second=0)` and
`end = start + timedelta(days=1)` and format both the same way.  We model a
local calendar date and naive-datetime day arithmetic (which for midnight
inputs is exactly calendar day increment). -/

structure Date where
  y : Nat
  m : Nat
  d : Nat
deriving DecidableEq, Repr

/-- Gregorian leap-year rule, as implemented by Python's `datetime`. -/
def isLeap (y : Nat) : Bool := (y % 4 == 0 && y % 100 != 0) || y % 400 == 0

/-- Number of days in a month. -/
def daysInMonth (y m : Nat) : Nat :=
  if m = 2 then (if isLeap y then 29 else 28)
  else if m = 4 || m = 6 || m = 9 || m = 11 then 30
  else 31

/-- Calendar successor of a date: models `date.replace(hour=0, ...) +
timedelta(days=1)` on naive datetimes, which lands on the next calendar
day's midnight. -/
def nextDay (dt : Date) : Date :=
  if dt.d < daysInMonth dt.y dt.m then ⟨dt.y, dt.m, dt.d + 1⟩
  else if dt.m < 12 then ⟨dt.y, dt.m + 1, 1⟩
  else ⟨dt.y + 1, 1, 1⟩

/-- A date whose components are in calendar range (as `datetime` guarantees). -/
def validDate (dt : Date) : Prop :=
  1 ≤ dt.m ∧ dt.m ≤ 12 ∧ 1 ≤ dt.d ∧ dt.d ≤ daysInMonth dt.y dt.m

instance (dt : Date) : Decidable (validDate dt) := by
  unfold validDate; infer_instance

/-- Fixed-width decimal rendering (most significant digit first), modelling
the zero-padded fields of `strftime('%Y-%m-%d %H:%M:%S')`. -/
def digitsW : Nat → Nat → List Char
  | 0, _ => []
  | w + 1, n => Char.ofNat (48 + n / 10 ^ w) :: digitsW w (n % 10 ^ w)

/-- Characters of the `%Y-%m-%d` rendering of a date. -/
def dateChars (dt : Date) : List Char :=
  digitsW 4 dt.y ++ '-' :: digitsW 2 dt.m ++ '-' :: digitsW 2 dt.d

/-- The `'%Y-%m-%d %H:%M:%S'` string for a date's local midnight: this is the
`start_str` (and, applied to `nextDay`, the `end_str`) used by every daily
query. -/
def midnightStr (dt : Date) : String := String.mk (dateChars dt ++ " 00:00:00".data)

/-- The SQL range predicate `timestamp >= start AND timestamp < end` of the
daily queries, with `start`/`end` the midnight strings of the query date and
its calendar successor. -/
def inDay (d : Date) (ts : String) : Bool :=
  !(strLtB ts (midnightStr d)) && strLtB ts (midnightStr (nextDay d))

/-! ## Activity records and the shared filters of `database.py` -/

/-- One row of the `activities` table (`database.py`).  `project_name`,
`category` and `project_tag` are nullable columns; `timestamp` is the stored
local-time string. -/
structure ActivityRecord where
  timestamp : String
  window_title : String
  process_name : String
  project_name : Option String
  category : Option String
  is_active : Bool
  duration_seconds : Nat
  project_tag : Option String
deriving DecidableEq, Repr

/-- The category filter appended by every aggregation query:
`if hidden_categories:` (Python truthiness, so only for a non-empty list) add
`AND (category IS NULL OR category NOT IN (...))`. -/
def catKeep (hiddenCategories : List String) (r : ActivityRecord) : Bool :=
  if hiddenCategories.isEmpty then true
  else
    match r.category with
    | none => true
    | some c => !(hiddenCategories.contains c)

/-- `Database._is_app_hidden`: false when `hidden_apps` or the name is falsy,
otherwise a case-insensitive substring test of any pattern in the name. -/
def is_app_hidden (project_name : String) (hidden_apps : List String) : Bool :=
  if hidden_apps.isEmpty || project_name = "" then false
  else hidden_apps.any (fun pat => inStr (lowerStr pat) (lowerStr project_name))

/-- The hidden-apps test as applied by `get_activities_for_date`, where the
row's `project_name` may be NULL (`None` is falsy, hence never hidden). -/
def isAppHiddenOpt (hidden_apps : List String) (pn : Option String) : Bool :=
  match pn with
  | none => false
  | some s => is_app_hidden s hidden_apps

/-- Sum of `duration_seconds` contributed to `active_seconds`:
`SUM(CASE WHEN is_active THEN duration_seconds ELSE 0 END)`. -/
def activeDur (r : ActivityRecord) : Nat :=
  if r.is_active then r.duration_seconds else 0

/-- `COALESCE(project_name, 'Uncategorized')`. -/
def coalesceName (r : ActivityRecord) : String := r.project_name.getD "Uncategorized"

/-- `COALESCE(category, 'Other')`. -/
def coalesceCat (r : ActivityRecord) : String := r.category.getD "Other"

/-- `Database.get_activities_for_date`: range + category filter in SQL,
`ORDER BY timestamp`, then the Python-side hidden-apps filter (applied only
when the list is truthy). -/
def get_activities_for_date (table : List ActivityRecord) (date : Date)
    (hidden_categories hidden_apps : List String) : List ActivityRecord :=
  let rows := table.filter (fun r => inDay date r.timestamp && catKeep hidden_categories r)
  let rows := sortBy (fun a b => !(strLtB b.timestamp a.timestamp)) rows
  if hidden_apps.isEmpty then rows
  else rows.filter (fun r => !(isAppHiddenOpt hidden_apps r.project_name))

/-- One output row of `get_daily_summary` / `get_weekly_summary`-style
grouped queries. -/
structure SummaryRow where
  project_name : String
  category : Option String
  active_seconds : Nat
  total_seconds : Nat
  activity_count : Nat
deriving DecidableEq, Repr

/-- The `GROUP BY COALESCE(project_name, 'Uncategorized')` aggregation: one
row per distinct coalesced name (first-occurrence order; SQLite leaves the
bare `category` column's representative row unspecified, modelled as the
group's first row). -/
def groupRows (rows : List ActivityRecord) : List SummaryRow :=
  ((rows.map coalesceName).dedup).map (fun k =>
    let g := rows.filter (fun r => coalesceName r = k)
    { project_name := k
      category := (g.head?).bind (fun r => r.category)
      active_seconds := (g.map activeDur).sum
      total_seconds := (g.map (fun r => r.duration_seconds)).sum
      activity_count := g.length })

/-- `Database.get_daily_summary`: range + category filter, group by coalesced
project name, `ORDER BY active_seconds DESC`, then the Python-side
hidden-apps filter on the (coalesced, hence non-null) group name. -/
def get_daily_summary (table : List ActivityRecord) (date : Date)
    (hidden_categories hidden_apps : List String) : List SummaryRow :=
  let rows := table.filter (fun r => inDay date r.timestamp && catKeep hidden_categories r)
  let grouped := sortBy (fun a b => decide (b.active_seconds ≤ a.active_seconds)) (groupRows rows)
  if hidden_apps.isEmpty then grouped
  else grouped.filter (fun row => !(is_app_hidden row.project_name hidden_apps))

/-- One row of `get_weekly_summary`: grouped by coalesced name and
`DATE(timestamp)` (for the stored `'%Y-%m-%d %H:%M:%S'` strings, `DATE`
yields the first ten characters). -/
structure WeeklyRow where
  project_name : String
  date : String
  active_seconds : Nat
deriving DecidableEq, Repr

/-- `Database.get_weekly_summary`: seven-day range (`end = start + 7 days`),
category filter, `GROUP BY name, DATE(timestamp)`, `ORDER BY date,
active_seconds DESC`, then the Python-side hidden-apps filter. -/
def get_weekly_summary (table : List ActivityRecord) (start_date : Date)
    (hidden_categories hidden_apps : List String) : List WeeklyRow :=
  let endDay := nextDay (nextDay (nextDay (nextDay (nextDay (nextDay (nextDay start_date))))))
  let inWeek := fun ts => !(strLtB ts (midnightStr start_date)) && strLtB ts (midnightStr endDay)
  let rows := table.filter (fun r => inWeek r.timestamp && catKeep hidden_categories r)
  let keys := (rows.map (fun r => (coalesceName r, r.timestamp.take 10))).dedup
  let grouped := keys.map (fun k =>
    let g := rows.filter (fun r => coalesceName r = k.1 ∧ r.timestamp.take 10 = k.2)
    { project_name := k.1, date := k.2, active_seconds := (g.map activeDur).sum : WeeklyRow })
  let grouped := sortBy (fun a b =>
    strLtB a.date b.date || (a.date = b.date && decide (b.active_seconds ≤ a.active_seconds))) grouped
  if hidden_apps.isEmpty then grouped
  else grouped.filter (fun row => !(is_app_hidden row.project_name hidden_apps))

/-! ## Nested (hierarchical) daily views -/

/-- One inner `(category-or-tag, project_name)` group produced by the
two-key `GROUP BY` of the hierarchical queries. -/
structure PairRow where
  key1 : String
  project_name : String
  active_seconds : Nat
  total_seconds : Nat
  activity_count : Nat
deriving DecidableEq, Repr

/-- Two-key grouping `GROUP BY k1, COALESCE(project_name, 'Uncategorized')`
shared by the category and project-tag hierarchical queries. -/
def pairRows (k1 : ActivityRecord → String) (rows : List ActivityRecord) : List PairRow :=
  ((rows.map (fun r => (k1 r, coalesceName r))).dedup).map (fun kp =>
    let g := rows.filter (fun r => k1 r = kp.1 ∧ coalesceName r = kp.2)
    { key1 := kp.1
      project_name := kp.2
      active_seconds := (g.map activeDur).sum
      total_seconds := (g.map (fun r => r.duration_seconds)).sum
      activity_count := g.length })

/-- One entry of a group's `'activities'` list in the nested dict
structures. -/
structure ActivityEntry where
  project_name : String
  active_seconds : Nat
  total_seconds : Nat
  activity_count : Nat
deriving DecidableEq, Repr

/-- A value of the nested category dict:
`{'active_seconds': .., 'total_seconds': .., 'activity_count': ..,
'activities': [..]}`. -/
structure CategoryGroup where
  active_seconds : Nat
  total_seconds : Nat
  activity_count : Nat
  activities : List ActivityEntry
deriving DecidableEq, Repr

/-- The `'activities'` element appended for one inner grouped row. -/
def entryOf (row : PairRow) : ActivityEntry :=
  { project_name := row.project_name
    active_seconds := row.active_seconds
    total_seconds := row.total_seconds
    activity_count := row.activity_count }

/-- The per-row update of the Python accumulation loop: create the outer key
with zeroed totals if absent (insertion order, hence appended at the end),
then add the row's sums and append it to the `'activities'` list. -/
def updateGroup (row : PairRow) : List (String × CategoryGroup) → List (String × CategoryGroup)
  | [] => [(row.key1,
      { active_seconds := row.active_seconds
        total_seconds := row.total_seconds
        activity_count := row.activity_count
        activities := [entryOf row] })]
  | (k, g) :: rest =>
    if k = row.key1 then
      (k, { active_seconds := g.active_seconds + row.active_seconds
            total_seconds := g.total_seconds + row.total_seconds
            activity_count := g.activity_count + row.activity_count
            activities := g.activities ++ [entryOf row] }) :: rest
    else (k, g) :: updateGroup row rest

/-- `Database.get_daily_summary_by_category_with_activities`: two-key SQL
grouping ordered by `category, active_seconds DESC`, Python hidden-apps
filter on the inner project name, accumulation into a dict keyed by
category, then sorting the categories by descending `active_seconds`. -/
def get_daily_summary_by_category_with_activities (table : List ActivityRecord) (date : Date)
    (hidden_categories hidden_apps : List String) : List (String × CategoryGroup) :=
  let base := table.filter (fun r => inDay date r.timestamp && catKeep hidden_categories r)
  let rows := sortBy (fun a b =>
    strLtB a.key1 b.key1 || (a.key1 = b.key1 && decide (b.active_seconds ≤ a.active_seconds)))
    (pairRows coalesceCat base)
  let rows := if hidden_apps.isEmpty then rows
    else rows.filter (fun r => !(is_app_hidden r.project_name hidden_apps))
  let result := rows.foldl (fun acc row => updateGroup row acc) []
  sortBy (fun a b => decide (b.2.active_seconds ≤ a.2.active_seconds)) result

/-! ## Rule tables: projects and project tags (stored keyword lists) -/

/-- A raw row of the `projects` table: `keywords` is the stored TEXT column
holding a JSON-encoded list of strings. -/
structure ProjectRow where
  id : Nat
  name : String
  color : String
  keywords : String
deriving DecidableEq, Repr

/-- A raw row of the `project_tags` table. -/
structure TagRow where
  id : Nat
  name : String
  keywords : String
  color : String
  enabled : Bool
deriving DecidableEq, Repr

/-- A parsed project (after `json.loads` of the keywords column). -/
structure Project where
  id : Nat
  name : String
  color : String
  keywords : List String
deriving DecidableEq, Repr

/-- A parsed project tag. -/
structure ProjectTag where
  id : Nat
  name : String
  keywords : List String
  color : String
  enabled : Bool
deriving DecidableEq, Repr

/-- Step of the JSON string-literal scanner: consume characters up to the
closing quote, handling a backslash escape by skipping the escaped
character (the only escapes `json.dumps` emits for these keyword lists). -/
def jsonString : List Char → Option (String × List Char)
  | [] => none
  | c :: rest =>
    if c = '"' then some ("", rest)
    else if c = '\\' then
      match rest with
      | [] => none
      | e :: rest2 =>
        match jsonString rest2 with
        | some (s, r) => some (String.mk (e :: s.data), r)
        | none => none
    else
      match jsonString rest with
      | some (s, r) => some (String.mk (c :: s.data), r)
      | none => none

/-- Skip JSON whitespace. -/
def skipWs : List Char → List Char
  | c :: rest => if c = ' ' || c = '\t' || c = '\n' || c = '\r' then skipWs rest else c :: rest
  | [] => []

/-- Parse one-or-more comma-separated JSON string elements followed by the
closing bracket (fuelled recursion; the fuel is the input length, which
bounds the number of elements). -/
def jsonElems : Nat → List Char → Option (List String × List Char)
  | 0, _ => none
  | fuel + 1, cs =>
    match skipWs cs with
    | '"' :: rest =>
      match jsonString rest with
      | none => none
      | some (s, r) =>
        match skipWs r with
        | ']' :: rest2 => some ([s], rest2)
        | ',' :: rest2 =>
          match jsonElems fuel rest2 with
          | some (ss, r2) => some (s :: ss, r2)
          | none => none
        | _ => none
    | _ => none

/-- Model of `json.loads` on the stored keyword columns, which hold JSON
arrays of strings (what `json.dumps(list_of_str)` produces); any other
content fails to parse, modelling `json.JSONDecodeError`. -/
def parseKeywords (s : String) : Option (List String) :=
  match skipWs s.data with
  | '[' :: rest =>
    (match skipWs rest with
     | ']' :: rest2 => if skipWs rest2 = [] then some [] else none
     | _ =>
       match jsonElems (s.data.length + 1) rest with
       | some (ss, r) => if skipWs r = [] then some ss else none
       | none => none)
  | _ => none

deriving instance DecidableEq for Except

/-- Row-by-row effectful map: processes rows in order and stops at the
first failure, exactly like the Python `for` loop around `json.loads`. -/
def mapExcept (f : α → Except String β) : List α → Except String (List β)
  | [] => Except.ok []
  | a :: as =>
    match f a with
    | Except.error e => Except.error e
    | Except.ok b =>
      match mapExcept f as with
      | Except.error e => Except.error e
      | Except.ok bs => Except.ok (b :: bs)

/-- `Database.get_projects`: `SELECT * FROM projects ORDER BY name`, then
`json.loads` of each row's keywords with no error handling — a single
malformed row raises `json.JSONDecodeError` and aborts the whole load,
modelled by `Except.error`. -/
def get_projects (rows : List ProjectRow) : Except String (List Project) :=
  let rows := sortBy (fun a b => !(strLtB b.name a.name)) rows
  mapExcept (fun row =>
    match parseKeywords row.keywords with
    | some kws => Except.ok { id := row.id, name := row.name, color := row.color, keywords := kws }
    | none => Except.error "JSONDecodeError") rows

/-- `Database.get_project_tags`: optional `enabled = 1` filter,
`ORDER BY name ASC`, then `json.loads` of each row's keywords, again with no
error handling around the parse. -/
def get_project_tags (rows : List TagRow) (enabled_only : Bool) : Except String (List ProjectTag) :=
  let rows := if enabled_only then rows.filter (fun r => r.enabled) else rows
  let rows := sortBy (fun a b => !(strLtB b.name a.name)) rows
  mapExcept (fun row =>
    match parseKeywords row.keywords with
    | some kws =>
      Except.ok { id := row.id, name := row.name, keywords := kws,
                  color := row.color, enabled := row.enabled }
    | none => Except.error "JSONDecodeError") rows

/-! ## Project-tag nested daily view -/

/-- A value of the nested project-tag dict (like `CategoryGroup` but with
the tag's color). -/
structure TagGroup where
  active_seconds : Nat
  total_seconds : Nat
  activity_count : Nat
  color : String
  activities : List ActivityEntry
deriving DecidableEq, Repr

/-- The per-row update of the tag accumulation loop; the dict key is
`row['project_tag'] or None` (an empty-string tag collapses to `None`), and
a new key's color is looked up in the tag table (default `'#888888'`). -/
def updateTagGroup (tagColors : List (String × String)) (row : PairRow) :
    List (Option String × TagGroup) → List (Option String × TagGroup)
  | [] =>
    let tag : Option String := if row.key1 = "" then none else some row.key1
    [(tag,
      { active_seconds := row.active_seconds
        total_seconds := row.total_seconds
        activity_count := row.activity_count
        color := match tag with
          | some t => ((tagColors.find? (fun kv => kv.1 = t)).map (fun kv => kv.2)).getD "#888888"
          | none => "#888888"
        activities := [entryOf row] })]
  | (k, g) :: rest =>
    if k = (if row.key1 = "" then none else some row.key1) then
      (k, { active_seconds := g.active_seconds + row.active_seconds
            total_seconds := g.total_seconds + row.total_seconds
            activity_count := g.activity_count + row.activity_count
            color := g.color
            activities := g.activities ++ [entryOf row] }) :: rest
    else (k, g) :: updateTagGroup tagColors row rest

/-- `Database.get_daily_summary_by_project_tag`: like the category view but
with `AND project_tag IS NOT NULL` in the SQL, grouping by the (non-null)
tag, and colors looked up via `get_project_tags()` — whose parse failure
therefore propagates out of this query too. -/
def get_daily_summary_by_project_tag (table : List ActivityRecord) (tagTable : List TagRow)
    (date : Date) (hidden_categories hidden_apps : List String) :
    Except String (List (Option String × TagGroup)) :=
  let base := table.filter (fun r =>
    inDay date r.timestamp && r.project_tag.isSome && catKeep hidden_categories r)
  let rows := sortBy (fun a b =>
    strLtB a.key1 b.key1 || (a.key1 = b.key1 && decide (b.active_seconds ≤ a.active_seconds)))
    (pairRows (fun r => r.project_tag.getD "") base)
  let rows := if hidden_apps.isEmpty then rows
    else rows.filter (fun r => !(is_app_hidden r.project_name hidden_apps))
  match get_project_tags tagTable false with
  | Except.error e => Except.error e
  | Except.ok tags =>
    let tagColors := tags.map (fun t => (t.name, t.color))
    let result := rows.foldl (fun acc row => updateTagGroup tagColors row acc) []
    Except.ok (sortBy (fun a b => decide (b.2.active_seconds ≤ a.2.active_seconds)) result)

/-! ## Helper lemmas about sorting and membership -/

theorem mem_sortBy {le : α → α → Bool} {l : List α} {a : α} :
    a ∈ sortBy le l ↔ a ∈ l := (sortBy_perm le l).mem_iff

theorem sum_map_sortBy (le : α → α → Bool) (l : List α) (f : α → Nat) :
    ((sortBy le l).map f).sum = (l.map f).sum :=
  ((sortBy_perm le l).map f).sum_eq

/-! ## Claim C1: the minimum-activity-seconds threshold -/

/-- A ten-second active record, below the configured default threshold of
`minimum_activity_seconds = 30`. -/
def c1_record : ActivityRecord :=
  { timestamp := "2025-03-10 09:00:00", window_title := "t", process_name := "p"
    project_name := some "A", category := some "Development"
    is_active := true, duration_seconds := 10, project_tag := none }

/-- C1: the spec claims every aggregation query drops a grouped row whose
total `active_seconds` is below the configured `minimum_activity_seconds`
threshold.  The code does not implement this: none of the `Database`
aggregation methods accept a threshold parameter (`ReportView._refresh`
passes `min_activity_seconds` as an extra positional argument they do not
declare), and a group totalling 10 active seconds — below the default
threshold of 30 — is still returned by the flat daily summary. -/
theorem c1_threshold_group_still_returned :
    get_daily_summary [c1_record] ⟨2025, 3, 10⟩ [] [] =
      [{ project_name := "A", category := some "Development",
         active_seconds := 10, total_seconds := 10, activity_count := 1 }] ∧
    (10 : Nat) < 30 := by
  constructor
  · decide
  · decide

/-! ## Claim C7: the hidden-categories filter -/

theorem catKeep_of_none {hc : List String} {r : ActivityRecord}
    (h : r.category = none) : catKeep hc r = true := by
  unfold catKeep
  split
  · rfl
  · rw [h]

theorem catKeep_false_of_hidden {hc : List String} {r : ActivityRecord} {c : String}
    (hne : hc ≠ []) (hcat : r.category = some c) (hmem : c ∈ hc) :
    catKeep hc r = false := by
  unfold catKeep
  rw [if_neg (by simpa [List.isEmpty_iff] using hne), hcat]
  simpa using hmem

theorem base_filter_stable (table : List ActivityRecord) (p : ActivityRecord → Bool) :
    (table.filter (fun r => catKeep p' r)).filter (fun r => p r && catKeep p' r)
      = table.filter (fun r => p r && catKeep p' r) := by
  rw [List.filter_filter]
  apply List.filter_congr
  intro r _
  cases h1 : p r <;> cases h2 : catKeep p' r <;> simp [h1, h2]

/-- C7: for aggregation queries called with a non-empty `hidden_categories`
list, a record whose category is in the list fails the SQL filter and thus
contributes nothing (dropping all such records from the table leaves both
the raw daily query and the flat daily summary unchanged), while a record
with a NULL category always passes the filter (`category IS NULL OR ...`). -/
theorem c7_hidden_categories (table : List ActivityRecord) (d : Date)
    (hc ha : List String) (hne : hc ≠ []) :
    (∀ r ∈ get_activities_for_date table d hc ha, ∀ c, r.category = some c → c ∉ hc) ∧
    (∀ r : ActivityRecord, r.category = none → catKeep hc r = true) ∧
    (∀ r : ActivityRecord, ∀ c, r.category = some c → c ∈ hc → catKeep hc r = false) ∧
    get_activities_for_date table d hc ha
      = get_activities_for_date (table.filter (fun r => catKeep hc r)) d hc ha ∧
    get_daily_summary table d hc ha
      = get_daily_summary (table.filter (fun r => catKeep hc r)) d hc ha := by
  refine ⟨?_, ?_, ?_, ?_, ?_⟩
  · intro r hr c hcat hmem
    have hbase : r ∈ table.filter (fun r => inDay d r.timestamp && catKeep hc r) := by
      unfold get_activities_for_date at hr
      simp only at hr
      split at hr
      · exact mem_sortBy.mp hr
      · exact mem_sortBy.mp (List.mem_of_mem_filter hr)
    have hkeep : catKeep hc r = true := by
      have := List.of_mem_filter hbase
      exact (Bool.and_eq_true _ _ ▸ this).2
    rw [catKeep_false_of_hidden hne hcat hmem] at hkeep
    exact absurd hkeep (by simp)
  · intro r h; exact catKeep_of_none h
  · intro r c hcat hmem; exact catKeep_false_of_hidden hne hcat hmem
  · unfold get_activities_for_date
    rw [base_filter_stable]
  · unfold get_daily_summary
    rw [base_filter_stable]

/-- Closed instantiation of `c7_hidden_categories` at a concrete table and
filter set. -/
theorem c7_hidden_categories_witness :
    (["Media"] : List String) ≠ [] ∧
    (∀ r ∈ get_activities_for_date [c1_record] ⟨2025, 3, 10⟩ ["Media"] [],
        ∀ c, r.category = some c → c ∉ ["Media"]) := by
  refine ⟨by decide, ?_⟩
  exact (c7_hidden_categories [c1_record] ⟨2025, 3, 10⟩ ["Media"] [] (by decide)).1

theorem lexLt_irrefl (l : List Char) : lexLt l l = false := by
  induction l with
  | nil => rfl
  | cons a as ih => simp [lexLt, ih]

theorem charOfNat_digit_toNat (q : Nat) (h : q < 10) :
    (Char.ofNat (48 + q)).toNat = 48 + q := by
  interval_cases q <;> decide

theorem digitsW_length (w n : Nat) : (digitsW w n).length = w := by
  induction w generalizing n with
  | zero => rfl
  | succ w ih => simp [digitsW, ih]

theorem digitsW_lt (w : Nat) : ∀ a b : Nat, a < b → b < 10 ^ w →
    lexLt (digitsW w a) (digitsW w b) = true := by
  induction w with
  | zero => intro a b hab hb; simp at hb; omega
  | succ w ih =>
    intro a b hab hb
    have hpos : 0 < 10 ^ w := Nat.pos_pow_of_pos _ (by norm_num)
    have hb10 : b / 10 ^ w < 10 := by
      rw [Nat.div_lt_iff_lt_mul hpos]
      calc b < 10 ^ (w + 1) := hb
        _ = 10 * 10 ^ w := by ring
    have ha10 : a / 10 ^ w < 10 := by
      have : a / 10 ^ w ≤ b / 10 ^ w := Nat.div_le_div_right (Nat.le_of_lt hab)
      omega
    have hdiv : a / 10 ^ w ≤ b / 10 ^ w := Nat.div_le_div_right (Nat.le_of_lt hab)
    rcases Nat.lt_or_ge (a / 10 ^ w) (b / 10 ^ w) with hlt | hge
    · simp only [digitsW, lexLt]
      rw [charOfNat_digit_toNat _ ha10, charOfNat_digit_toNat _ hb10]
      simp [Nat.add_lt_add_left hlt]
    · have heq : a / 10 ^ w = b / 10 ^ w := Nat.le_antisymm hdiv hge
      have hmod : a % 10 ^ w < b % 10 ^ w := by
        have h1 := Nat.div_add_mod a (10 ^ w)
        have h2 := Nat.div_add_mod b (10 ^ w)
        rw [heq] at h1
        omega
      simp only [digitsW, lexLt, heq]
      rw [ih _ _ hmod (Nat.mod_lt _ hpos)]
      simp

theorem lexLt_append_same (p a b : List Char) :
    lexLt (p ++ a) (p ++ b) = lexLt a b := by
  induction p with
  | nil => rfl
  | cons c cs ih => simp [lexLt, ih]

theorem lexLt_cons_same (c : Char) (a b : List Char) :
    lexLt (c :: a) (c :: b) = lexLt a b := by
  simp [lexLt]

theorem lexLt_append_of_lt : ∀ a b u v : List Char, a.length = b.length →
    lexLt a b = true → lexLt (a ++ u) (b ++ v) = true := by
  intro a
  induction a with
  | nil =>
    intro b u v hlen hlt
    cases b with
    | nil => simp [lexLt] at hlt
    | cons y ys => simp at hlen
  | cons x xs ih =>
    intro b u v hlen hlt
    cases b with
    | nil => simp at hlen
    | cons y ys =>
      simp only [lexLt, Bool.or_eq_true, Bool.and_eq_true, decide_eq_true_eq] at hlt
      rcases hlt with hlt | ⟨hxy, hlt⟩
      · simp only [List.cons_append, lexLt]
        simp [hlt]
      · subst hxy
        simp only [List.cons_append, lexLt_cons_same]
        exact ih ys u v (by simpa using hlen) hlt

theorem daysInMonth_le (y m : Nat) : daysInMonth y m ≤ 31 := by
  unfold daysInMonth
  split
  · split <;> norm_num
  · split <;> norm_num

/-- The midnight string of the calendar successor of a valid date is
strictly larger in the stored-string (byte-wise) order. -/
theorem midnightStr_mono (dt : Date) (hv : validDate dt) (hy : dt.y ≤ 9998) :
    strLtB (midnightStr dt) (midnightStr (nextDay dt)) = true := by
  obtain ⟨hm1, hm2, hd1, hd2⟩ := hv
  unfold strLtB midnightStr nextDay
  split
  · -- day increment within the month
    simp only [dateChars, List.append_assoc, List.cons_append]
    rw [lexLt_append_same, lexLt_cons_same, lexLt_append_same, lexLt_cons_same]
    exact lexLt_append_of_lt _ _ _ _ (by rw [digitsW_length, digitsW_length])
      (digitsW_lt 2 dt.d (dt.d + 1) (Nat.lt_succ_self _)
        (by have := daysInMonth_le dt.y dt.m; omega))
  · split
    · -- month increment
      simp only [dateChars, List.append_assoc, List.cons_append]
      rw [lexLt_append_same, lexLt_cons_same]
      refine lexLt_append_of_lt _ _ _ _ (by rw [digitsW_length, digitsW_length]) ?_
      exact digitsW_lt 2 dt.m (dt.m + 1) (Nat.lt_succ_self _) (by omega)
    · -- year increment
      simp only [dateChars, List.append_assoc, List.cons_append]
      refine lexLt_append_of_lt _ _ _ _ (by rw [digitsW_length, digitsW_length]) ?_
      exact digitsW_lt 4 dt.y (dt.y + 1) (Nat.lt_succ_self _) (by omega)

/-- Every month has at least one day. -/
theorem daysInMonth_pos (y m : Nat) : 1 ≤ daysInMonth y m := by
  unfold daysInMonth
  split
  · split <;> norm_num
  · split <;> norm_num

/-- `nextDay` preserves validity, and increases the year by at most one. -/
theorem validDate_nextDay (dt : Date) (hv : validDate dt) :
    validDate (nextDay dt) ∧ (nextDay dt).y ≤ dt.y + 1 := by
  obtain ⟨hm1, hm2, hd1, hd2⟩ := hv
  have hp1 := daysInMonth_pos dt.y (dt.m + 1)
  have hp2 := daysInMonth_pos (dt.y + 1) 1
  unfold validDate nextDay
  split
  · dsimp only
    omega
  · split
    · dsimp only
      omega
    · dsimp only
      omega

/-- C10: every daily query selects exactly the half-open interval from the
query date's local midnight (inclusive) to the next day's midnight
(exclusive); a record stamped exactly at the following midnight is outside
the query date's range and inside the following day's range, hence belongs
to the following day's raw query and never to both. -/
theorem c10_day_boundary (d : Date) (hv : validDate d) (hy : d.y ≤ 9997)
    (table : List ActivityRecord) (hc ha : List String) (r : ActivityRecord)
    (hr : r ∈ table) (hts : r.timestamp = midnightStr (nextDay d))
    (hcat : catKeep hc r = true) (happ : isAppHiddenOpt ha r.project_name = false) :
    inDay d r.timestamp = false ∧
    inDay (nextDay d) r.timestamp = true ∧
    r ∉ get_activities_for_date table d hc ha ∧
    r ∈ get_activities_for_date table (nextDay d) hc ha := by
  obtain ⟨hnv, hny⟩ := validDate_nextDay d hv
  have hself : strLtB (midnightStr (nextDay d)) (midnightStr (nextDay d)) = false := by
    unfold strLtB
    exact lexLt_irrefl _
  have h1 : inDay d r.timestamp = false := by
    unfold inDay
    rw [hts, hself, Bool.and_false]
  have h2 : inDay (nextDay d) r.timestamp = true := by
    unfold inDay
    rw [hts, hself]
    rw [midnightStr_mono (nextDay d) hnv (by omega)]
    rfl
  refine ⟨h1, h2, ?_, ?_⟩
  · intro hmem
    have hbase : r ∈ table.filter (fun r => inDay d r.timestamp && catKeep hc r) := by
      unfold get_activities_for_date at hmem
      simp only at hmem
      split at hmem
      · exact mem_sortBy.mp hmem
      · exact mem_sortBy.mp (List.mem_of_mem_filter hmem)
    have := List.of_mem_filter hbase
    rw [h1] at this
    simp at this
  · have hbase : r ∈ table.filter (fun r => inDay (nextDay d) r.timestamp && catKeep hc r) :=
      List.mem_filter.mpr ⟨hr, by rw [h2, hcat]; rfl⟩
    unfold get_activities_for_date
    simp only
    split
    · exact mem_sortBy.mpr hbase
    · exact List.mem_filter.mpr ⟨mem_sortBy.mpr hbase, by rw [happ]; rfl⟩

/-- A record stamped exactly at the midnight ending 2025-12-31. -/
def c10_rec : ActivityRecord :=
  { timestamp := "2026-01-01 00:00:00", window_title := "t", process_name := "p"
    project_name := some "A", category := none
    is_active := true, duration_seconds := 5, project_tag := none }

/-- Closed instantiation of `c10_day_boundary` at the year boundary. -/
theorem c10_day_boundary_witness :
    validDate ⟨2025, 12, 31⟩ ∧
    c10_rec ∉ get_activities_for_date [c10_rec] ⟨2025, 12, 31⟩ [] [] ∧
    c10_rec ∈ get_activities_for_date [c10_rec] (nextDay ⟨2025, 12, 31⟩) [] [] := by
  refine ⟨by decide, ?_, ?_⟩
  · exact (c10_day_boundary ⟨2025, 12, 31⟩ (by decide) (by decide) [c10_rec] [] [] c10_rec
      (by decide) (by decide) (by decide) (by decide)).2.2.1
  · exact (c10_day_boundary ⟨2025, 12, 31⟩ (by decide) (by decide) [c10_rec] [] [] c10_rec
      (by decide) (by decide) (by decide) (by decide)).2.2.2

/-! ## Claim C4: aggregation conservation -/

theorem sum_update {κ : Type} [DecidableEq κ] (ks : List κ) (a : κ) (x : Nat) (g : κ → Nat)
    (hnd : ks.Nodup) (ha : a ∈ ks) :
    (ks.map (fun k => if a = k then x + g k else g k)).sum = x + (ks.map g).sum := by
  induction ks with
  | nil => simp at ha
  | cons k ks ih =>
    rcases List.mem_cons.mp ha with h | h
    · subst h
      have hnot : a ∉ ks := (List.nodup_cons.mp hnd).1
      have : ks.map (fun k => if a = k then x + g k else g k) = ks.map g := by
        apply List.map_congr_left
        intro b hb
        rw [if_neg]
        intro hab
        exact hnot (hab ▸ hb)
      simp [this]
      omega
    · have hk : a ≠ k := by
        intro hak
        subst hak
        exact (List.nodup_cons.mp hnd).1 h
      simp only [List.map_cons, List.sum_cons, if_neg hk,
        ih (List.nodup_cons.mp hnd).2 h]
      omega

theorem fiber_sum {α κ : Type} [DecidableEq κ] (key : α → κ) (f : α → Nat) :
    ∀ (rs : List α) (ks : List κ), ks.Nodup → (∀ r ∈ rs, key r ∈ ks) →
      (ks.map (fun k => ((rs.filter (fun r => key r = k)).map f).sum)).sum
        = (rs.map f).sum := by
  intro rs
  induction rs with
  | nil =>
    intro ks _ _
    simp
  | cons r rs ih =>
    intro ks hnd hmem
    have hk : key r ∈ ks := hmem r (List.mem_cons_self _ _)
    have step : ks.map (fun k => (((r :: rs).filter (fun r => key r = k)).map f).sum)
        = ks.map (fun k =>
            if key r = k then f r + ((rs.filter (fun r => key r = k)).map f).sum
            else ((rs.filter (fun r => key r = k)).map f).sum) := by
      apply List.map_congr_left
      intro k _
      by_cases h : key r = k
      · simp [List.filter_cons, h]
      · simp [List.filter_cons, h]
    rw [step, sum_update ks (key r) (f r) _ hnd hk,
      ih ks hnd (fun x hx => hmem x (List.mem_cons_of_mem _ hx))]
    simp

theorem if_empty_filter {α : Type} (c : Bool) (p : α → Bool) (l : List α)
    (h : c = true → ∀ x, p x = true) :
    (if c then l else l.filter p) = l.filter p := by
  split
  · rw [List.filter_eq_self.mpr (fun x _ => h ‹_› x)]
  · rfl

theorem isAppHiddenOpt_empty (pn : Option String) : isAppHiddenOpt [] pn = false := by
  cases pn with
  | none => rfl
  | some s => simp [isAppHiddenOpt, is_app_hidden]

theorem active_filter_sum (l : List ActivityRecord) :
    ((l.filter (fun r => r.is_active)).map (fun r => r.duration_seconds)).sum
      = (l.map activeDur).sum := by
  induction l with
  | nil => rfl
  | cons r rs ih =>
    by_cases h : r.is_active
    · simp [List.filter_cons, h, activeDur, ih]
    · simp [List.filter_cons, h, activeDur, ih]

/-- C4 (amended): aggregation conservation holds for every table, date and
filter set in which no hidden-apps pattern matches the literal fallback
label `"Uncategorized"`: the sum of `active_seconds` over the groups of the
flat daily summary equals the sum of `duration_seconds` over the active
records of the raw daily query under the same filters. -/
theorem c4_conservation (table : List ActivityRecord) (d : Date) (hc ha : List String)
    (h : is_app_hidden "Uncategorized" ha = false) :
    ((get_daily_summary table d hc ha).map (fun row => row.active_seconds)).sum =
    (((get_activities_for_date table d hc ha).filter (fun r => r.is_active)).map
        (fun r => r.duration_seconds)).sum := by
  have hq : ∀ r : ActivityRecord,
      (!(isAppHiddenOpt ha r.project_name)) = !(is_app_hidden (coalesceName r) ha) := by
    intro r
    cases hpn : r.project_name with
    | none => simp [isAppHiddenOpt, coalesceName, hpn, h]
    | some s => simp [isAppHiddenOpt, coalesceName, hpn]
  -- the shared base row set of both queries
  set base := table.filter (fun r => inDay d r.timestamp && catKeep hc r) with hbase
  clear_value base
  -- left-hand side: reduce to a sum over visible fibers
  have hL : ((get_daily_summary table d hc ha).map (fun row => row.active_seconds)).sum
      = ((((base.map coalesceName).dedup).filter
            (fun k => !(is_app_hidden k ha))).map
          (fun k => ((base.filter (fun r => coalesceName r = k)).map activeDur).sum)).sum := by
    unfold get_daily_summary
    rw [← hbase]
    rw [if_empty_filter _ _ _ (fun hemp row => by
      have : ha = [] := List.isEmpty_iff.mp hemp
      simp [this, is_app_hidden])]
    rw [((((sortBy_perm _ (groupRows base)).filter _).map _).sum_eq)]
    unfold groupRows
    rw [List.filter_map, List.map_map]
    rfl
  -- right-hand side: reduce to the same record sum
  have hR : (((get_activities_for_date table d hc ha).filter (fun r => r.is_active)).map
        (fun r => r.duration_seconds)).sum
      = ((base.filter (fun r => !(is_app_hidden (coalesceName r) ha))).map activeDur).sum := by
    unfold get_activities_for_date
    rw [← hbase]
    rw [if_empty_filter _ _ _ (fun hemp r => by
      have : ha = [] := List.isEmpty_iff.mp hemp
      simp [this, isAppHiddenOpt_empty])]
    rw [((((sortBy_perm _ base).filter _).filter _).map _).sum_eq, active_filter_sum]
    congr 1
    apply congrArg
    apply List.filter_congr
    intro r _
    exact hq r
  rw [hL, hR]
  -- fibers over visible keys of the visible record set
  have hfib : ((((base.map coalesceName).dedup).filter (fun k => !(is_app_hidden k ha))).map
          (fun k => ((base.filter (fun r => coalesceName r = k)).map activeDur).sum)).sum
      = ((((base.map coalesceName).dedup).filter (fun k => !(is_app_hidden k ha))).map
          (fun k => (((base.filter (fun r => !(is_app_hidden (coalesceName r) ha))).filter
              (fun r => coalesceName r = k)).map activeDur).sum)).sum := by
    congr 1
    apply List.map_congr_left
    intro k hk
    have hvis : (!(is_app_hidden k ha)) = true := (List.mem_filter.mp hk).2
    congr 1
    apply congrArg
    rw [List.filter_filter]
    apply List.filter_congr
    intro r _
    by_cases hck : coalesceName r = k
    · simp [hck, hvis]
    · simp [hck]
  rw [hfib]
  apply fiber_sum
  · exact (List.nodup_dedup _).filter _
  · intro r hr
    apply List.mem_filter.mpr
    constructor
    · exact List.mem_dedup.mpr (List.mem_map_of_mem coalesceName (List.mem_of_mem_filter hr))
    · exact (List.mem_filter.mp hr).2

/-- An active record with a NULL `project_name`: its summary group is the
coalesced `"Uncategorized"` row, but the raw query's hidden-apps filter
never matches a NULL name. -/
def c4_null_rec : ActivityRecord :=
  { timestamp := "2025-03-10 12:00:00", window_title := "t", process_name := "p"
    project_name := none, category := none
    is_active := true, duration_seconds := 5, project_tag := none }

/-- Counterexample to C4 as stated: with `hidden_apps = ["uncategorized"]`
and one active NULL-label record, the flat summary hides the whole
`"Uncategorized"` group (sum 0) while the raw query keeps the record
(sum 5), so the conservation equality fails for this filter set. -/
theorem c4_conservation_counterexample :
    ¬ (((get_daily_summary [c4_null_rec] ⟨2025, 3, 10⟩ [] ["uncategorized"]).map
          (fun row => row.active_seconds)).sum =
       (((get_activities_for_date [c4_null_rec] ⟨2025, 3, 10⟩ [] ["uncategorized"]).filter
            (fun r => r.is_active)).map (fun r => r.duration_seconds)).sum) := by
  decide

/-- Closed instantiation of `c4_conservation` at a concrete table and a
hidden-apps list that does not match `"Uncategorized"`. -/
theorem c4_conservation_witness :
    is_app_hidden "Uncategorized" ["media"] = false ∧
    ((get_daily_summary [c4_null_rec, c10_rec] ⟨2025, 3, 10⟩ [] ["media"]).map
        (fun row => row.active_seconds)).sum =
      (((get_activities_for_date [c4_null_rec, c10_rec] ⟨2025, 3, 10⟩ [] ["media"]).filter
          (fun r => r.is_active)).map (fun r => r.duration_seconds)).sum :=
  ⟨by decide, c4_conservation [c4_null_rec, c10_rec] ⟨2025, 3, 10⟩ [] ["media"] (by decide)⟩

/-! ## Claim C5: hierarchical consistency of the nested views -/

/-- A category group's totals equal the sums over its `'activities'` list. -/
def entrySums (g : CategoryGroup) : Prop :=
  g.active_seconds = (g.activities.map (fun e => e.active_seconds)).sum ∧
  g.total_seconds = (g.activities.map (fun e => e.total_seconds)).sum ∧
  g.activity_count = (g.activities.map (fun e => e.activity_count)).sum

/-- A tag group's totals equal the sums over its `'activities'` list. -/
def tagEntrySums (g : TagGroup) : Prop :=
  g.active_seconds = (g.activities.map (fun e => e.active_seconds)).sum ∧
  g.total_seconds = (g.activities.map (fun e => e.total_seconds)).sum ∧
  g.activity_count = (g.activities.map (fun e => e.activity_count)).sum

theorem updateGroup_inv (row : PairRow) :
    ∀ acc : List (String × CategoryGroup), (∀ kg ∈ acc, entrySums kg.2) →
      ∀ kg ∈ updateGroup row acc, entrySums kg.2 := by
  intro acc
  induction acc with
  | nil =>
    intro _ kg hkg
    simp only [updateGroup, List.mem_singleton] at hkg
    subst hkg
    refine ⟨?_, ?_, ?_⟩ <;> simp [entryOf]
  | cons hd tl ih =>
    intro hinv kg hkg
    obtain ⟨k, g⟩ := hd
    simp only [updateGroup] at hkg
    split at hkg
    · rcases List.mem_cons.mp hkg with h | h
      · subst h
        obtain ⟨h1, h2, h3⟩ := hinv (k, g) (List.mem_cons_self _ _)
        dsimp only at h1 h2 h3
        refine ⟨?_, ?_, ?_⟩ <;>
          simp [entryOf, List.sum_append, h1, h2, h3]
      · exact hinv kg (List.mem_cons_of_mem _ h)
    · rcases List.mem_cons.mp hkg with h | h
      · subst h
        exact hinv (k, g) (List.mem_cons_self _ _)
      · exact ih (fun x hx => hinv x (List.mem_cons_of_mem _ hx)) kg h

theorem updateTagGroup_inv (tagColors : List (String × String)) (row : PairRow) :
    ∀ acc : List (Option String × TagGroup), (∀ kg ∈ acc, tagEntrySums kg.2) →
      ∀ kg ∈ updateTagGroup tagColors row acc, tagEntrySums kg.2 := by
  intro acc
  induction acc with
  | nil =>
    intro _ kg hkg
    simp only [updateTagGroup, List.mem_singleton] at hkg
    subst hkg
    refine ⟨?_, ?_, ?_⟩ <;> simp [entryOf]
  | cons hd tl ih =>
    intro hinv kg hkg
    obtain ⟨k, g⟩ := hd
    simp only [updateTagGroup] at hkg
    generalize (if row.key1 = "" then (none : Option String) else some row.key1) = tk at hkg
    split at hkg
    · rcases List.mem_cons.mp hkg with h | h
      · subst h
        obtain ⟨h1, h2, h3⟩ := hinv (k, g) (List.mem_cons_self _ _)
        dsimp only at h1 h2 h3
        refine ⟨?_, ?_, ?_⟩ <;>
          simp [entryOf, List.sum_append, h1, h2, h3]
      · exact hinv kg (List.mem_cons_of_mem _ h)
    · rcases List.mem_cons.mp hkg with h | h
      · subst h
        exact hinv (k, g) (List.mem_cons_self _ _)
      · exact ih (fun x hx => hinv x (List.mem_cons_of_mem _ hx)) kg h

theorem foldl_updateGroup_inv (rows : List PairRow) :
    ∀ acc : List (String × CategoryGroup), (∀ kg ∈ acc, entrySums kg.2) →
      ∀ kg ∈ rows.foldl (fun acc row => updateGroup row acc) acc, entrySums kg.2 := by
  induction rows with
  | nil => intro acc hinv kg hkg; exact hinv kg hkg
  | cons r rs ih =>
    intro acc hinv kg hkg
    exact ih _ (updateGroup_inv r acc hinv) kg hkg

theorem foldl_updateTagGroup_inv (tagColors : List (String × String)) (rows : List PairRow) :
    ∀ acc : List (Option String × TagGroup), (∀ kg ∈ acc, tagEntrySums kg.2) →
      ∀ kg ∈ rows.foldl (fun acc row => updateTagGroup tagColors row acc) acc, tagEntrySums kg.2 := by
  induction rows with
  | nil => intro acc hinv kg hkg; exact hinv kg hkg
  | cons r rs ih =>
    intro acc hinv kg hkg
    exact ih _ (updateTagGroup_inv tagColors r acc hinv) kg hkg

/-- C5: in the category-nested daily view, and in the project-tag-nested
daily view whenever it returns successfully, every outer group's
`active_seconds`, `total_seconds` and `activity_count` equal the respective
sums over its nested `'activities'` entries (both accumulations add a row's
metrics to the group exactly when they append the row as a child). -/
theorem c5_hierarchical_consistency (table : List ActivityRecord) (tagTable : List TagRow)
    (d : Date) (hc ha : List String) :
    (∀ kg ∈ get_daily_summary_by_category_with_activities table d hc ha, entrySums kg.2) ∧
    (∀ res, get_daily_summary_by_project_tag table tagTable d hc ha = Except.ok res →
      ∀ kg ∈ res, tagEntrySums kg.2) := by
  constructor
  · intro kg hkg
    unfold get_daily_summary_by_category_with_activities at hkg
    simp only at hkg
    exact foldl_updateGroup_inv _ [] (by simp) kg (mem_sortBy.mp hkg)
  · intro res hres kg hkg
    unfold get_daily_summary_by_project_tag at hres
    simp only at hres
    split at hres
    · exact absurd hres (by simp)
    · cases hres
      exact foldl_updateTagGroup_inv _ _ [] (by simp) kg (mem_sortBy.mp hkg)

def c5_rec1 : ActivityRecord :=
  { timestamp := "2025-03-10 09:00:00", window_title := "t", process_name := "p"
    project_name := some "A", category := some "Development"
    is_active := true, duration_seconds := 10, project_tag := none }

def c5_rec2 : ActivityRecord :=
  { timestamp := "2025-03-10 09:05:00", window_title := "t", process_name := "p"
    project_name := some "B", category := some "Development"
    is_active := false, duration_seconds := 20, project_tag := none }

/-- The single category group produced for the two-record table. -/
def c5_group : CategoryGroup :=
  { active_seconds := 10, total_seconds := 30, activity_count := 2
    activities := [{ project_name := "A", active_seconds := 10,
                     total_seconds := 10, activity_count := 1 },
                   { project_name := "B", active_seconds := 0,
                     total_seconds := 20, activity_count := 1 }] }

/-- Closed instantiation of `c5_hierarchical_consistency` at a concrete
two-record table. -/
theorem c5_hierarchical_consistency_witness :
    ("Development", c5_group) ∈
      get_daily_summary_by_category_with_activities [c5_rec1, c5_rec2] ⟨2025, 3, 10⟩ [] [] ∧
    entrySums c5_group :=
  ⟨by decide,
   (c5_hierarchical_consistency [c5_rec1, c5_rec2] [] ⟨2025, 3, 10⟩ [] []).1
     ("Development", c5_group) (by decide)⟩

/-! ## Rule loading in `ProjectMapper` (claims C3, C8) -/

/-- `ProjectRule` from `project_mapper.py`: pattern lists matched with
`re.search(pattern, ..., re.IGNORECASE)`.  Rules loaded from the database
carry `re.escape`d keywords, i.e. literal substrings, which is how the
matcher below treats them. -/
structure ProjectRule where
  project_name : String
  process_patterns : List String
  title_patterns : List String
  priority : Nat
deriving DecidableEq, Repr

/-- The rule-construction loop of `ProjectMapper._load_rules` over already
parsed projects: one rule per project with a non-empty keyword list
(`priority = 1`), then sorted by descending priority (stable). -/
def load_rules_from (projects : List Project) : List ProjectRule :=
  let rules := (projects.filter (fun p => !p.keywords.isEmpty)).map (fun p =>
    { project_name := p.name, process_patterns := [],
      title_patterns := p.keywords, priority := 1 : ProjectRule })
  sortBy (fun a b => decide (b.priority ≤ a.priority)) rules

/-- `ProjectMapper._load_rules`: calls `Database.get_projects` (which parses
every row's keyword JSON with no error handling) and builds the custom rule
list; a parse failure therefore propagates and aborts the whole load. -/
def mapper_load_rules (rows : List ProjectRow) : Except String (List ProjectRule) :=
  match get_projects rows with
  | Except.error e => Except.error e
  | Except.ok ps => Except.ok (load_rules_from ps)

theorem mapExcept_keywords_error :
    ∀ l : List ProjectRow, (∃ r ∈ l, parseKeywords r.keywords = none) →
      mapExcept (fun row =>
        match parseKeywords row.keywords with
        | some kws =>
          Except.ok { id := row.id, name := row.name, color := row.color, keywords := kws }
        | none => (Except.error "JSONDecodeError" : Except String Project)) l
        = Except.error "JSONDecodeError" := by
  intro l
  induction l with
  | nil => intro h; simp at h
  | cons r rs ih =>
    intro h
    rcases h with ⟨row, hmem, hnone⟩
    rcases List.mem_cons.mp hmem with heq | hmem
    · subst heq
      simp [mapExcept, hnone]
    · cases hpk : parseKeywords r.keywords with
      | none => simp [mapExcept, hpk]
      | some kws =>
        simp [mapExcept, hpk, ih ⟨row, hmem, hnone⟩]

/-- C8 (amended): a malformed keyword list is not skipped — the JSON parse
error propagates out of `get_projects`, so `ProjectMapper._load_rules`
returns no ruleset at all (every other rule is lost with it). -/
theorem c8_malformed_rule_aborts_load (rows : List ProjectRow)
    (h : ∃ r ∈ rows, parseKeywords r.keywords = none) :
    get_projects rows = Except.error "JSONDecodeError" ∧
    mapper_load_rules rows = Except.error "JSONDecodeError" := by
  have hg : get_projects rows = Except.error "JSONDecodeError" := by
    unfold get_projects
    apply mapExcept_keywords_error
    rcases h with ⟨r, hmem, hnone⟩
    exact ⟨r, mem_sortBy.mpr hmem, hnone⟩
  refine ⟨hg, ?_⟩
  unfold mapper_load_rules
  rw [hg]

/-- A well-formed project row. -/
def c8_good_row : ProjectRow :=
  { id := 1, name := "Alpha", color := "#4A90D9", keywords := "[\"alpha\"]" }

/-- A row whose keyword column is corrupt (not JSON). -/
def c8_bad_row : ProjectRow :=
  { id := 2, name := "Broken", color := "#4A90D9", keywords := "not json" }

/-- Counterexample to C8 as stated: with one good and one corrupt rule row,
the whole rule load fails (`JSONDecodeError` propagates) instead of
skipping the corrupt rule and keeping `Alpha` — one bad rule does disable
the whole ruleset. -/
theorem c8_malformed_rule_counterexample :
    mapper_load_rules [c8_good_row, c8_bad_row] = Except.error "JSONDecodeError" ∧
    ∀ rules : List ProjectRule, mapper_load_rules [c8_good_row, c8_bad_row] ≠ Except.ok rules := by
  refine ⟨by decide, ?_⟩
  intro rules h
  rw [(by decide : mapper_load_rules [c8_good_row, c8_bad_row]
        = Except.error "JSONDecodeError")] at h
  exact absurd h (by simp)

/-- Closed instantiation of `c8_malformed_rule_aborts_load`. -/
theorem c8_malformed_rule_aborts_load_witness :
    (∃ r ∈ [c8_good_row, c8_bad_row], parseKeywords r.keywords = none) ∧
    mapper_load_rules [c8_good_row, c8_bad_row] = Except.error "JSONDecodeError" :=
  ⟨⟨c8_bad_row, by decide, by decide⟩,
   (c8_malformed_rule_aborts_load [c8_good_row, c8_bad_row]
     ⟨c8_bad_row, by decide, by decide⟩).2⟩

/-! ## Python string helpers used by the classifier

All helpers are structural (fuelled where the scan skips several characters)
so that concrete classifications reduce inside the kernel. -/

/-- Python `str` whitespace (ASCII range of `str.strip` / `\s`). -/
def isPySpace (c : Char) : Bool :=
  c = ' ' || c = '\t' || c = '\n' || c = '\r' || c = '\x0b' || c = '\x0c'

/-- Remove trailing whitespace. -/
def rstripWs (l : List Char) : List Char := (l.reverse.dropWhile isPySpace).reverse

/-- Python `str.strip()`. -/
def pyStrip (s : String) : String :=
  String.mk (rstripWs (s.data.dropWhile isPySpace))

/-- Python slicing `s[:n]`. -/
def takeStr (n : Nat) (s : String) : String := String.mk (s.data.take n)

/-- Case-insensitive `needle in hay` (both sides lowered, as the source
lowers both operands). -/
def inStrCI (needle hay : String) : Bool := inStr (lowerStr needle) (lowerStr hay)

/-- Case-insensitive prefix test against an (already lowercase) pattern. -/
def listStartsCI (pat l : List Char) : Bool := listStarts pat (l.map Char.toLower)

/-- Fuelled worker for Python `str.split(sep)` with a non-empty separator. -/
def splitGo (sep : List Char) : Nat → List Char → List (List Char)
  | 0, l => [l]
  | fuel + 1, l =>
    if listStarts sep l then
      [] :: splitGo sep fuel (l.drop sep.length)
    else
      match l with
      | [] => [[]]
      | c :: rest =>
        match splitGo sep fuel rest with
        | [] => [[c]]
        | g :: gs => (c :: g) :: gs

/-- Python `s.split(sep)` for a non-empty separator (keeps empty pieces). -/
def splitOnSep (sep s : String) : List String :=
  (splitGo sep.data (s.data.length + 1) s.data).map String.mk

/-- Fuelled worker for Python `str.replace` (leftmost, non-overlapping). -/
def replGo (old new : List Char) : Nat → List Char → List Char
  | 0, l => l
  | fuel + 1, l =>
    if !old.isEmpty && listStarts old l then
      new ++ replGo old new fuel (l.drop old.length)
    else
      match l with
      | [] => []
      | c :: rest => c :: replGo old new fuel rest

/-- Python `s.replace(old, new)` for a non-empty `old`. -/
def replaceStr (s old new : String) : String :=
  String.mk (replGo old.data new.data (s.data.length + 1) s.data)

/-- Python `s.endswith(sfx)`. -/
def endsWithStr (sfx s : String) : Bool := listStarts sfx.data.reverse s.data.reverse

/-- First index at which `pat` occurs in `l` (Python `str.find`, as used
after a successful containment check). -/
def findSubIdx (pat : List Char) : List Char → Nat
  | [] => 0
  | c :: rest => if listStarts pat (c :: rest) then 0 else findSubIdx pat rest + 1

/-- Python `s.rsplit(sep, 1)`. -/
def rsplitOnce (sep s : String) : List String :=
  let parts := splitOnSep sep s
  if parts.length ≥ 2 then
    [String.intercalate sep parts.dropLast, parts.getLastD ""]
  else [s]

/-- Python `' '.join(s.split())`: collapse whitespace runs to single spaces
and drop leading/trailing whitespace. -/
def joinWords (s : String) : String :=
  String.mk (List.intercalate [' ']
    ((s.data.splitOnP isPySpace).filter (fun w => !w.isEmpty)))

/-! ## The Visual Studio / VS Code title parsers (`project_mapper.py`) -/

/-- Model of `re.sub(r'\s*\([^)]*\)\s*$', '', s)`: if, after the optional
trailing whitespace, the string ends with a `(...)` group containing no
`')'`, remove that group together with the whitespace around it; otherwise
return the string unchanged. -/
def stripParenSuffix (s : String) : String :=
  match (rstripWs s.data).reverse with
  | ')' :: urev =>
    let u := urev.reverse
    let tail := (u.reverse.takeWhile (fun c => c ≠ ')')).reverse
    let pre := tail.takeWhile (fun c => c ≠ '(')
    if pre.length = tail.length then s
    else String.mk (rstripWs (u.take (u.length - tail.length) ++ pre))
  | _ => s

/-- Model of `re.sub(r'\s*\[[^\]]*\]\s*$', '', s)` (the `[Administrator]`
suffix stripper), symmetric to `stripParenSuffix`. -/
def stripBracketSuffix (s : String) : String :=
  match (rstripWs s.data).reverse with
  | ']' :: urev =>
    let u := urev.reverse
    let tail := (u.reverse.takeWhile (fun c => c ≠ ']')).reverse
    let pre := tail.takeWhile (fun c => c ≠ '[')
    if pre.length = tail.length then s
    else String.mk (rstripWs (u.take (u.length - tail.length) ++ pre))
  | _ => s

/-- Length of the segment after the last dot: `len(s.split('.')[-1])`. -/
def lastDotSegLen (s : String) : Nat := (s.data.reverse.takeWhile (fun c => c ≠ '.')).length

/-- Match `\s+-\s+` at the front of `l` (greedy whitespace runs), returning
the remainder. -/
def matchWsDashWs (l : List Char) : Option (List Char) :=
  let w1 := l.takeWhile isPySpace
  if w1.isEmpty then none
  else
    match l.dropWhile isPySpace with
    | '-' :: r2 =>
      let w2 := r2.takeWhile isPySpace
      if w2.isEmpty then none else some (r2.dropWhile isPySpace)
    | _ => none

/-- Match `\s*-\s*Microsoft Visual Studio` at the front of `l`
(case-insensitively, the pattern is compiled with `re.IGNORECASE`). -/
def matchTailVS (l : List Char) : Bool :=
  match l.dropWhile isPySpace with
  | '-' :: r2 => listStartsCI "microsoft visual studio".data (r2.dropWhile isPySpace)
  | _ => false

/-- Match `\s*\([^)]*\)` at the front of `l`, returning the remainder. -/
def matchParenGroup (l : List Char) : Option (List Char) :=
  match l.dropWhile isPySpace with
  | '(' :: r2 =>
    match r2.dropWhile (fun c => c ≠ ')') with
    | ')' :: r4 => some r4
    | _ => none
  | _ => none

/-- Group 1 of `VISUAL_STUDIO_TITLE_PATTERN` =
`^(?:.*?\s+-\s+)?([^-\(\)]+?)(?:\s*\([^)]*\))?\s*-\s*Microsoft Visual
Studio` at a given start position, trying the lazy group-1 lengths
shortest-first and the greedy optional parenthesis group present-first,
exactly in the regex engine's backtracking order. -/
def tryVSAt (cs : List Char) (s0 : Nat) : Option String :=
  let tail0 := cs.drop s0
  (List.range tail0.length).findSome? (fun gm1 =>
    let g1 := tail0.take (gm1 + 1)
    if g1.length = gm1 + 1 && g1.all (fun c => c ≠ '-' && c ≠ '(' && c ≠ ')') then
      let p := tail0.drop (gm1 + 1)
      match matchParenGroup p with
      | some q => if matchTailVS q then some (String.mk g1)
                  else if matchTailVS p then some (String.mk g1) else none
      | none => if matchTailVS p then some (String.mk g1) else none
    else none)

/-- Leftmost-preference match of `VISUAL_STUDIO_TITLE_PATTERN` against the
whole title: the greedy optional prefix `(?:.*?\s+-\s+)?` is tried first
with its lazy `.*?` shortest-first, then with the prefix absent. -/
def vsTitleRegex (title : String) : Option String :=
  let cs := title.data
  let cands : List Nat :=
    ((List.range (cs.length + 1)).filterMap (fun i =>
      match matchWsDashWs (cs.drop i) with
      | some rest => some (cs.length - rest.length)
      | none => none)) ++ [0]
  cands.findSome? (fun s0 => tryVSAt cs s0)

/-- `ProjectMapper._detect_visual_studio_project`. -/
def detect_visual_studio_project (window_title : String) : Option String :=
  if window_title = "" then none
  else
    let title_lower := lowerStr window_title
    if ["start page", "getting started", "welcome", "options", "about"].any
        (fun sk => inStr sk title_lower) then none
    else if !(inStr "microsoft visual studio" title_lower) then none
    else
      let parts := splitOnSep " - " window_title
      let fromParts : Option String :=
        if parts.length ≥ 2 then
          let solution := pyStrip (parts.headD "")
          let solution := pyStrip (stripParenSuffix solution)
          let solution := pyStrip (stripBracketSuffix solution)
          let solution :=
            if solution ≠ "" && solution.data.contains '.' && lastDotSegLen solution ≤ 5 then
              (if parts.length ≥ 3 then
                let s2 := pyStrip ((parts.get? 1).getD "")
                let s2 := pyStrip (stripParenSuffix s2)
                pyStrip (stripBracketSuffix s2)
              else solution)
            else solution
          if solution ≠ "" && !(["untitled", "new project"].contains (lowerStr solution)) then
            some solution
          else none
        else none
      match fromParts with
      | some p => some p
      | none =>
        match vsTitleRegex window_title with
        | some g1 =>
          let project := pyStrip g1
          if project ≠ "" &&
              !(["untitled", "new project", "start page"].contains (lowerStr project)) then
            some project
          else none
        | none => none

/-- Match `\s*-\s*Visual Studio Code` at the front of `l`
(case-insensitive). -/
def matchTailVSCode (l : List Char) : Bool :=
  match l.dropWhile isPySpace with
  | '-' :: r2 => listStartsCI "visual studio code".data (r2.dropWhile isPySpace)
  | _ => false

/-- Match the greedy optional `(?:\s*\[.*?\])?` followed by the VS Code
tail, trying the bracket group present-first and its lazy `.*?` against
each `']'` leftmost-first. -/
def matchBracketThenTail (l : List Char) : Bool :=
  (match l.dropWhile isPySpace with
   | '[' :: r2 =>
     (List.range r2.length).any (fun k =>
       r2.get? k = some ']' && matchTailVSCode (r2.drop (k + 1)))
   | _ => false) ||
  matchTailVSCode l

/-- Group 1 of `VSCODE_TITLE_PATTERN` =
`^(?:.*? - )?([^-\[\]]+?)(?:\s*\[.*?\])?\s*-\s*Visual Studio Code`, in the
regex engine's backtracking order. -/
def vscodeTitleRegex (title : String) : Option String :=
  let cs := title.data
  let tryAt : Nat → Option String := fun s0 =>
    let tail0 := cs.drop s0
    (List.range tail0.length).findSome? (fun gm1 =>
      let g1 := tail0.take (gm1 + 1)
      if g1.length = gm1 + 1 && g1.all (fun c => c ≠ '-' && c ≠ '[' && c ≠ ']') then
        if matchBracketThenTail (tail0.drop (gm1 + 1)) then some (String.mk g1) else none
      else none)
  let cands : List Nat :=
    ((List.range (cs.length + 1)).filterMap (fun i =>
      if listStarts [' ', '-', ' '] (cs.drop i) then some (i + 3) else none)) ++ [0]
  cands.findSome? tryAt

/-- Model of the global `re.sub(r'\s*\[.*?\]\s*', '', s)` that deletes
WSL/Remote bracket tags (lazy body up to the first `']'`, whitespace on
both sides absorbed). -/
def subBracketTagsGo : Nat → List Char → List Char
  | 0, l => l
  | fuel + 1, l =>
    let w := l.takeWhile isPySpace
    let r := l.dropWhile isPySpace
    match r with
    | '[' :: r2 =>
      (match r2.dropWhile (fun c => c ≠ ']') with
       | ']' :: r3 => subBracketTagsGo fuel (r3.dropWhile isPySpace)
       | _ =>
         match l with
         | [] => []
         | c :: rest => c :: subBracketTagsGo fuel rest)
    | _ =>
      match l with
      | [] => []
      | c :: rest =>
        if w.isEmpty then c :: subBracketTagsGo fuel rest
        else c :: subBracketTagsGo fuel rest

/-- Python `re.sub(r'\s*\[.*?\]\s*', '', s)`. -/
def subBracketTags (s : String) : String :=
  String.mk (subBracketTagsGo (s.data.length + 1) s.data)

/-- `ProjectMapper._detect_vscode_project`. -/
def detect_vscode_project (window_title : String) : Option String :=
  if window_title = "" then none
  else
    let title_lower := lowerStr window_title
    if ["welcome", "settings", "extensions", "keyboard shortcuts"].any
        (fun sk => inStr sk title_lower) then none
    else
      match vscodeTitleRegex window_title with
      | some g1 =>
        let project := pyStrip g1
        if !(["untitled", "output", "terminal", "debug console"].contains (lowerStr project)) then
          some project
        else fallbackParts window_title
      | none => fallbackParts window_title
where
  /-- The path-based fallback (`filename - FolderName - VS Code`). -/
  fallbackParts (window_title : String) : Option String :=
    let parts := splitOnSep " - " window_title
    if parts.length ≥ 3 && inStr "visual studio code" (lowerStr (parts.getLastD "")) then
      let project := pyStrip ((parts.get? (parts.length - 2)).getD "")
      let project := pyStrip (subBracketTags project)
      if project ≠ "" && !(["untitled", "output", "terminal"].contains (lowerStr project)) then
        some project
      else none
    else none

/-! ## The application-type extractors (`project_mapper.py`) -/

/-- Try `\s+and\s+\d+\s+more\s+pages?\s*$` starting exactly here, i.e. check
the remainder is the extra-tabs artifact (greedy runs; the optional `s` is
taken when present). -/
def morePagesHere (l : List Char) : Bool :=
  let w1 := l.takeWhile isPySpace
  if w1.isEmpty then false
  else
    let r := l.dropWhile isPySpace
    if listStartsCI "and".data r then
      let r := r.drop 3
      let w2 := r.takeWhile isPySpace
      let r := r.dropWhile isPySpace
      let ds := r.takeWhile (fun c => c.isDigit)
      if w2.isEmpty || ds.isEmpty then false
      else
        let r := r.dropWhile (fun c => c.isDigit)
        let w3 := r.takeWhile isPySpace
        let r := r.dropWhile isPySpace
        if w3.isEmpty then false
        else if listStartsCI "more".data r then
          let r := r.drop 4
          let w4 := r.takeWhile isPySpace
          let r := r.dropWhile isPySpace
          if w4.isEmpty then false
          else if listStartsCI "page".data r then
            let r := r.drop 4
            match r with
            | c :: rest =>
              if c = 's' || c = 'S' then rest.all isPySpace else r.all isPySpace
            | [] => true
          else false
        else false
    else false

/-- Model of `re.sub(r'\s+and\s+\d+\s+more\s+pages?\s*$', '', title)`:
remove the artifact from the leftmost position at which it runs to the end
of the string. -/
def subMorePagesEnd (s : String) : String :=
  let cs := s.data
  match (List.range cs.length).findSome? (fun i =>
      if morePagesHere (cs.drop i) then some i else none) with
  | some i => String.mk (cs.take i)
  | none => s

/-- `ProjectMapper._extract_browser_page_title`.  The second Edge suffix
carries the zero-width-space character present in the source file. -/
def extract_browser_page_title (window_title : String) : Option String :=
  if window_title = "" then none
  else
    let suffixes := [" - Microsoft Edge", " - Microsoft\u200B Edge",
                     " - Google Chrome", " - Mozilla Firefox",
                     " - Brave", " - Opera"]
    let title :=
      match suffixes.find? (fun sfx => endsWithStr sfx window_title) with
      | some sfx => String.mk (window_title.data.take (window_title.length - sfx.length))
      | none => window_title
    let title :=
      match rsplitOnce " - " title with
      | [p0, p1] =>
        let potential := pyStrip p1
        if potential.length ≤ 20 && !(potential.data.contains ' ') then p0 else title
      | _ => title
    let title := subMorePagesEnd title
    if pyStrip title ≠ "" then some (pyStrip title) else none

/-- `ProjectMapper._extract_editor_filename`. -/
def extract_editor_filename (window_title : String) : Option String :=
  if window_title = "" then none
  else
    let suffixes := [" - Notepad++", " - Notepad", " - Sublime Text", " - Atom"]
    let title :=
      match suffixes.find? (fun sfx => inStr (lowerStr sfx) (lowerStr window_title)) with
      | some sfx =>
        String.mk (window_title.data.take (findSubIdx (lowerStr sfx).data (lowerStr window_title).data))
      | none => window_title
    let title := pyStrip (String.mk (title.data.dropWhile (fun c => c = '*')))
    if title ≠ "" then some title else none

/-- `ProjectMapper._extract_office_document`. -/
def extract_office_document (window_title app_name : String) : Option String :=
  if window_title = "" then none
  else
    let parts := splitOnSep " - " window_title
    let doc_name := pyStrip (parts.headD "")
    if !(["document", "book", "presentation", lowerStr app_name].contains
          (lowerStr doc_name)) then
      some (takeStr 50 doc_name)
    else none

/-- The leftmost match of `[:\s](~?/[^\s]+|/[^\s]+)` (pattern 1 of
`_extract_terminal_directory`): a colon or whitespace followed by an
optional `~`, a `/`, and a maximal non-empty run of non-whitespace. -/
def termPattern1 (cs : List Char) : Option (List Char) :=
  (List.range cs.length).findSome? (fun i =>
    match cs.get? i with
    | some c =>
      if c = ':' || isPySpace c then
        match cs.drop (i + 1) with
        | '~' :: '/' :: r =>
          let run := r.takeWhile (fun c => !isPySpace c)
          if run.isEmpty then none else some ('~' :: '/' :: run)
        | '/' :: r =>
          let run := r.takeWhile (fun c => !isPySpace c)
          if run.isEmpty then none else some ('/' :: run)
        | _ => none
      else none
    | none => none)

/-- The leftmost match of `[A-Za-z]:[/\\][^\s]*` (pattern 2): a drive-letter
path; the trailing run may be empty. -/
def termPattern2 (cs : List Char) : Option (List Char) :=
  (List.range cs.length).findSome? (fun i =>
    match cs.get? i with
    | some c =>
      if c.isAlpha then
        match cs.drop (i + 1) with
        | ':' :: d :: r =>
          if d = '/' || d = '\\' then
            some (c :: ':' :: d :: r.takeWhile (fun c => !isPySpace c))
          else none
        | _ => none
      else none
    | none => none)

/-- `re.match(r'(~?/[^\s]+)', title)` (pattern 3, anchored at the start). -/
def termPattern3 (cs : List Char) : Option (List Char) :=
  match cs with
  | '~' :: '/' :: r =>
    let run := r.takeWhile (fun c => !isPySpace c)
    if run.isEmpty then none else some ('~' :: '/' :: run)
  | '/' :: r =>
    let run := r.takeWhile (fun c => !isPySpace c)
    if run.isEmpty then none else some ('/' :: run)
  | _ => none

/-- The leftmost match of `/mnt/[a-z]/[^\s]*` with `re.IGNORECASE`
(pattern 4). -/
def termPattern4 (cs : List Char) : Option (List Char) :=
  (List.range cs.length).findSome? (fun i =>
    let r := cs.drop i
    if listStartsCI "/mnt/".data r then
      match r.drop 5 with
      | c :: '/' :: rest =>
        if c.isAlpha then
          some (r.take 5 ++ c :: '/' :: rest.takeWhile (fun c => !isPySpace c))
        else none
      | _ => none
    else none)

/-- `ProjectMapper._extract_terminal_directory`. -/
def extract_terminal_directory (window_title : String) : Option String :=
  if window_title = "" then none
  else
    let title := pyStrip window_title
    if ["ubuntu", "bash", "zsh", "sh", "powershell", "cmd", "pwsh",
        "fish", "terminal", "console", "wsl"].contains (lowerStr title) then none
    else
      let cs := title.data
      let path : Option (List Char) :=
        match termPattern1 cs with
        | some p => some p
        | none =>
          match termPattern2 cs with
          | some p => some p
          | none =>
            match (if title.data.headD ' ' = '~' || title.data.headD ' ' = '/'
                   then termPattern3 cs else none) with
            | some p => some p
            | none => termPattern4 cs
      match path with
      | none => none
      | some path =>
        let path := path.map (fun c => if c = '\\' then '/' else c)
        let path := (path.reverse.dropWhile (fun c => c = '/')).reverse
        let parts := splitGo ['/'] (path.length + 1) path
        let last := parts.getLastD []
        if !last.isEmpty && !(last.length = 1 && (last.headD ' ').isAlpha) then
          let lastS := pyStrip (String.mk last)
          if lastS ≠ "" && lastS.length ≤ 50 then some lastS else none
        else none

/-- Suffix check for pattern 1 of `_extract_teams_context`
(`\s*[-|]\s*Microsoft\s*Teams\s*$` after the lazy group): greedy
whitespace runs, a dash or pipe, `Microsoft`, optional space, `Teams`,
trailing whitespace, end of string (case-insensitive). -/
def teamsSuffixHere (l : List Char) : Bool :=
  match l.dropWhile isPySpace with
  | c :: r =>
    (c = '-' || c = '|') &&
      (let r := r.dropWhile isPySpace
       listStartsCI "microsoft".data r &&
         (let r := (r.drop 9).dropWhile isPySpace
          listStartsCI "teams".data r && (r.drop 5).all isPySpace))
  | [] => false

/-- Suffix check for pattern 2 (`\s*\|\s*Chat\s*$`). -/
def chatSuffixHere (l : List Char) : Bool :=
  match l.dropWhile isPySpace with
  | '|' :: r =>
    let r := r.dropWhile isPySpace
    listStartsCI "chat".data r && (r.drop 4).all isPySpace
  | _ => false

/-- The `(.+?)` group of an end-anchored pattern: the shortest non-empty
prefix whose remainder satisfies `sfx` (the regex engine extends the lazy
group one character at a time). -/
def lazyGroupBefore (sfx : List Char → Bool) (cs : List Char) : Option String :=
  (List.range cs.length).findSome? (fun gm1 =>
    if gm1 + 1 ≤ cs.length && sfx (cs.drop (gm1 + 1)) then
      some (String.mk (cs.take (gm1 + 1)))
    else none)

/-- Python `s[:47] + "..." if len(s) > n` style truncation used by the
Teams extractor. -/
def truncTo (n cut : Nat) (s : String) : String :=
  if s.length > n then takeStr cut s ++ "..." else s

/-- `ProjectMapper._extract_teams_context`. -/
def extract_teams_context (window_title : String) : String :=
  if window_title = "" then "Teams"
  else
    let title := pyStrip window_title
    if ["microsoft teams", "teams", ""].contains (lowerStr title) then "Teams"
    else
      let p1 : Option String :=
        match lazyGroupBefore teamsSuffixHere title.data with
        | some g =>
          let context := pyStrip g
          if context ≠ "" && !(["microsoft", ""].contains (lowerStr context)) then
            some ("Teams - " ++ truncTo 50 47 context)
          else none
        | none => none
      match p1 with
      | some r => r
      | none =>
        let p2 : Option String :=
          match lazyGroupBefore chatSuffixHere title.data with
          | some g =>
            let person := pyStrip g
            if person ≠ "" then some ("Teams - Chat: " ++ truncTo 40 37 person) else none
          | none => none
        match p2 with
        | some r => r
        | none =>
          let p3 : Option String :=
            if listStartsCI "chat".data title.data then
              let r := (title.data.drop 4).dropWhile isPySpace
              match r with
              | '|' :: r2 =>
                let rest := r2.dropWhile isPySpace
                if !rest.isEmpty then
                  let names := pyStrip (String.mk rest)
                  if names ≠ "" then some ("Teams - Chat: " ++ truncTo 40 37 names) else none
                else none
              | _ => none
            else none
          match p3 with
          | some r => r
          | none =>
            let title_lower := lowerStr title
            if ["meeting", "call with", "scheduled", "standup", "sync",
                "review", "planning", "retro", "1:1", "1-1", "one-on-one"].any
                (fun kw => inStr kw title_lower) then
              let clean := pyStrip ((splitOnSep " | "
                ((splitOnSep " - " title).headD "")).headD "")
              "Teams - " ++ truncTo 50 47 clean
            else if !(["activity", "calendar", "files", "apps", "search", "settings",
                "notifications", "teams and channels", "new teams"].any
                  (fun w => inStr w title_lower)) &&
                title.data.contains ' ' && 3 ≤ title.length && title.length ≤ 60 then
              let clean := pyStrip ((splitOnSep " | "
                ((splitOnSep " - " title).headD "")).headD "")
              if clean ≠ "" then "Teams - " ++ truncTo 50 47 clean else "Teams"
            else "Teams"

/-- Python truthiness of an `Optional[str]` (`None` and `''` are falsy). -/
def pyTruthyOpt (o : Option String) : Bool :=
  match o with
  | none => false
  | some s => s ≠ ""

/-- The fixed category enumeration (`Category.all_categories`). -/
def all_categories : List String :=
  ["Development", "Browser", "Communication", "Remote Desktop", "Office", "Email",
   "Terminal", "Editor", "Media", "System", "Security", "Other"]

/-- Browser branch of `_detect_app_type` (show the actual tab title). -/
def browserStage (process_lower window_title : String) : Option (String × String) :=
  if ["chrome", "firefox", "msedge", "brave", "opera", "edge"].any
      (fun b => inStr b process_lower) then
    let page_title := extract_browser_page_title window_title
    if pyTruthyOpt page_title then
      let pt := page_title.getD ""
      let pt := if pt.length > 60 then takeStr 57 pt ++ "..." else pt
      some ("Browser: " ++ pt, "Browser")
    else some ("Browser", "Browser")
  else none

/-- Communication branch of `_detect_app_type` (Teams special-cased, then
the generic name lookup). -/
def commStage (process_lower title_lower window_title : String) : Option (String × String) :=
  if inStr "teams" process_lower || inStr "teams" title_lower then
    some (extract_teams_context window_title, "Communication")
  else
    ([("slack", "Slack"), ("zoom", "Zoom"), ("discord", "Discord"),
      ("webex", "Webex"), ("whatsapp", "WhatsApp"), ("telegram", "Telegram"),
      ("signal", "Signal"), ("skype", "Skype")].findSome?
      (fun kv => if inStr kv.1 process_lower || inStr kv.1 title_lower
                 then some kv.2 else none)).map (fun app_name => (app_name, "Communication"))

/-- Remote-desktop branch of `_detect_app_type`. -/
def remoteStage (process_lower window_title : String) : Option (String × String) :=
  ([("mstsc", "Remote Desktop"), ("rdcman", "RD Connection Manager"),
    ("anydesk", "AnyDesk"), ("teamviewer", "TeamViewer"),
    ("rustdesk", "RustDesk"), ("vmconnect", "Hyper-V Connect"),
    ("vmware", "VMware"), ("virtualbox", "VirtualBox")].findSome?
    (fun kv => if inStr kv.1 process_lower then some kv.2 else none)).map
    (fun app_name =>
      if window_title ≠ "" && window_title ≠ app_name then
        (app_name ++ ": " ++ takeStr 40 ((splitOnSep " - " window_title).headD ""),
         "Remote Desktop")
      else (app_name, "Remote Desktop"))

/-- Security/VPN branch of `_detect_app_type`. -/
def securityStage (process_lower title_lower : String) : Option (String × String) :=
  ([("forticlient", "FortiClient VPN"), ("vpn", "VPN"),
    ("openvpn", "OpenVPN"), ("wireguard", "WireGuard"),
    ("cisco", "Cisco VPN"), ("globalprotect", "GlobalProtect"),
    ("defender", "Windows Defender"), ("malwarebytes", "Malwarebytes")].findSome?
    (fun kv => if inStr kv.1 process_lower || inStr kv.1 title_lower
               then some kv.2 else none)).map (fun app_name => (app_name, "Security"))

/-- Text-editor branch of `_detect_app_type`. -/
def editorStage (process_lower process_name window_title : String) : Option (String × String) :=
  if ["notepad", "notepad++", "sublime", "atom", "textpad", "ultraedit"].any
      (fun e => inStr e process_lower) then
    let filename := extract_editor_filename window_title
    if pyTruthyOpt filename then some ("Editor: " ++ filename.getD "", "Editor")
    else some ("Editor: " ++ replaceStr process_name ".exe" "", "Editor")
  else none

/-- Office / e-mail branch of `_detect_app_type`. -/
def officeStage (process_lower window_title : String) : Option (String × String) :=
  if inStr "outlook" process_lower then some ("Outlook", "Email")
  else if ["winword", "word"].any (fun a => inStr a process_lower) then
    let doc := extract_office_document window_title "Word"
    some (if pyTruthyOpt doc then "Word: " ++ doc.getD "" else "Word", "Office")
  else if ["excel", "xlim"].any (fun a => inStr a process_lower) then
    let doc := extract_office_document window_title "Excel"
    some (if pyTruthyOpt doc then "Excel: " ++ doc.getD "" else "Excel", "Office")
  else if ["powerpnt", "powerpoint"].any (fun a => inStr a process_lower) then
    let doc := extract_office_document window_title "PowerPoint"
    some (if pyTruthyOpt doc then "PowerPoint: " ++ doc.getD "" else "PowerPoint", "Office")
  else if inStr "onenote" process_lower then some ("OneNote", "Office")
  else none

/-- Terminal/console branch of `_detect_app_type`. -/
def terminalStage (process_lower window_title : String) : Option (String × String) :=
  if ["windowsterminal", "cmd", "powershell", "conhost", "wsl"].any
      (fun t => inStr t process_lower) then
    if window_title ≠ "" then
      let dir_name := extract_terminal_directory window_title
      if pyTruthyOpt dir_name then some ("Terminal: " ++ dir_name.getD "", "Terminal")
      else some ("Terminal: " ++ takeStr 50 window_title, "Terminal")
    else some ("Terminal", "Terminal")
  else none

/-- Media branch of `_detect_app_type` (Spotify special-cased). -/
def mediaStage (process_lower window_title : String) : Option (String × String) :=
  if inStr "spotify" process_lower then
    if window_title ≠ "" && window_title ≠ "Spotify" then
      some ("Spotify: " ++ takeStr 50 window_title, "Media")
    else some ("Spotify", "Media")
  else if ["music", "vlc", "media", "groove", "itunes", "foobar"].any
      (fun a => inStr a process_lower) then
    some ("Media Player", "Media")
  else none

/-- File-explorer and system-utility branch of `_detect_app_type`. -/
def systemStage (process_lower window_title : String) : Option (String × String) :=
  if inStr "explorer" process_lower then
    if window_title = "" ||
        ["program manager", "desktop", ""].contains (lowerStr window_title) then
      some ("Desktop", "System")
    else some ("Explorer: " ++ takeStr 50 window_title, "System")
  else if ["taskmgr", "control", "mmc", "regedit", "services",
           "perfmon", "resmon"].any (fun a => inStr a process_lower) then
    some ("System Tools", "System")
  else none

/-- `ProjectMapper._detect_app_type`: the ordered chain of built-in
application detectors, returning `(display_name, category)` for known
applications.  Each stage function above embeds the correspondingly
commented section of the source function; the chain tries them in the
source's order. -/
def detect_app_type (process_name window_title : String) : Option (String × String) :=
  let process_lower := lowerStr process_name
  let title_lower := lowerStr window_title
  match browserStage process_lower window_title with
  | some r => some r
  | none =>
  match commStage process_lower title_lower window_title with
  | some r => some r
  | none =>
  match remoteStage process_lower window_title with
  | some r => some r
  | none =>
  match securityStage process_lower title_lower with
  | some r => some r
  | none =>
  match editorStage process_lower process_name window_title with
  | some r => some r
  | none =>
  match officeStage process_lower window_title with
  | some r => some r
  | none =>
  match terminalStage process_lower window_title with
  | some r => some r
  | none =>
  match mediaStage process_lower window_title with
  | some r => some r
  | none => systemStage process_lower window_title

/-- `ProjectMapper._matches_rule`.  Database-loaded rule patterns are
`re.escape`d keywords, so the `re.search(..., re.IGNORECASE)` calls reduce
to case-insensitive substring tests. -/
def matches_rule (rule : ProjectRule) (process_name window_title : String) : Bool :=
  rule.process_patterns.any (fun pat => inStrCI pat process_name) ||
  rule.title_patterns.any (fun pat => inStrCI pat window_title)

/-- `ProjectMapper.map_activity`: the ordered detection chain (Visual
Studio, VS Code, custom keyword rules, built-in application types, then
the guaranteed fallbacks).  `rules` is the mapper's `_custom_rules`
cache. -/
def map_activity (rules : List ProjectRule) (process_name window_title : String) :
    String × String :=
  let vs : Option (String × String) :=
    if ["devenv.exe", "devenv"].contains process_name ||
        inStr "microsoft visual studio" (lowerStr window_title) then
      let project := detect_visual_studio_project window_title
      if pyTruthyOpt project then some (project.getD "", "Development") else none
    else none
  match vs with
  | some r => r
  | none =>
    let vscode : Option (String × String) :=
      if ["Code.exe", "Code", "code", "Code - Insiders.exe"].contains process_name ||
          inStr "visual studio code" (lowerStr window_title) then
        let project := detect_vscode_project window_title
        if pyTruthyOpt project then some (project.getD "", "Development") else none
      else none
    match vscode with
    | some r => r
    | none =>
      match rules.findSome? (fun rule =>
          if matches_rule rule process_name window_title then
            some (rule.project_name, "Other")
          else none) with
      | some r => r
      | none =>
        match detect_app_type process_name window_title with
        | some r => r
        | none =>
          if process_name ≠ "" && process_name ≠ "Unknown" then
            let clean_name := replaceStr (replaceStr process_name ".exe" "") ".EXE" ""
            ("App: " ++ clean_name, "Other")
          else if window_title ≠ "" then
            ("Window: " ++ takeStr 50 ((splitOnSep " - " window_title).headD ""), "Other")
          else ("Unknown", "Other")

theorem str_pos_of_ne (s : String) (h : s ≠ "") : 0 < s.length := by
  cases s with
  | mk data =>
    cases data with
    | nil => exact absurd rfl h
    | cons c cs => simp [String.length]

theorem append_ne_empty (s t : String) (h : 0 < s.length) : s ++ t ≠ "" := by
  intro heq
  have := congrArg String.length heq
  rw [String.length_append] at this
  have h0 : ("" : String).length = 0 := rfl
  omega

theorem getD_ne_of_truthy (o : Option String) (h : pyTruthyOpt o = true) :
    o.getD "" ≠ "" := by
  cases o with
  | none => simp [pyTruthyOpt] at h
  | some s => simpa [pyTruthyOpt] using h

theorem findSome?_sound {α β : Type} (f : α → Option β) (P : β → Prop) :
    ∀ l : List α, (∀ a ∈ l, ∀ b, f a = some b → P b) →
      ∀ b, l.findSome? f = some b → P b := by
  intro l
  induction l with
  | nil => intro _ b hb; simp [List.findSome?] at hb
  | cons a as ih =>
    intro h b hb
    rw [List.findSome?_cons] at hb
    cases hfa : f a with
    | some c =>
      rw [hfa] at hb
      cases hb
      exact h a (List.mem_cons_self _ _) _ hfa
    | none =>
      rw [hfa] at hb
      exact ih (fun x hx => h x (List.mem_cons_of_mem _ hx)) b hb

theorem extract_teams_context_ne (t : String) : extract_teams_context t ≠ "" := by
  unfold extract_teams_context
  dsimp only
  split
  · decide
  · split
    · decide
    · split
      · rename_i r hr
        revert hr
        split
        · split
          · intro hr
            cases hr
            exact append_ne_empty _ _ (by decide)
          · intro hr; exact absurd hr (by simp)
        · intro hr; exact absurd hr (by simp)
      · split
        · rename_i r hr
          revert hr
          split
          · split
            · intro hr
              cases hr
              exact append_ne_empty _ _ (by decide)
            · intro hr; exact absurd hr (by simp)
          · intro hr; exact absurd hr (by simp)
        · split
          · rename_i r hr
            revert hr
            split
            · split
              · split
                · split
                  · intro hr
                    cases hr
                    exact append_ne_empty _ _ (by decide)
                  · intro hr; exact absurd hr (by simp)
                · intro hr; exact absurd hr (by simp)
              · intro hr; exact absurd hr (by simp)
            · intro hr; exact absurd hr (by simp)
          · split
            · exact append_ne_empty _ _ (by decide)
            · split
              · split
                · exact append_ne_empty _ _ (by decide)
                · decide
              · decide

theorem browserStage_sound (pl wt : String) (r : String × String)
    (h : browserStage pl wt = some r) : r.1 ≠ "" ∧ r.2 ∈ all_categories := by
  unfold browserStage at h
  dsimp only at h
  split at h
  · split at h <;> cases h
    · exact ⟨append_ne_empty _ _ (by decide), by dsimp only; decide⟩
    · exact ⟨by decide, by decide⟩
  · exact absurd h (by simp)

theorem dictFind_ne (l : List (String × String)) (f : String × String → Option String)
    (hf : ∀ kv ∈ l, ∀ b, f kv = some b → b = kv.2)
    (hvals : ∀ kv ∈ l, kv.2 ≠ "")
    (b : String) (h : l.findSome? f = some b) : b ≠ "" := by
  refine findSome?_sound f (fun s => s ≠ "") l ?_ b h
  intro kv hkv c hc
  rw [hf kv hkv c hc]
  exact hvals kv hkv

theorem commStage_sound (pl tl wt : String) (r : String × String)
    (h : commStage pl tl wt = some r) : r.1 ≠ "" ∧ r.2 ∈ all_categories := by
  unfold commStage at h
  split at h
  · cases h
    exact ⟨extract_teams_context_ne wt, by dsimp only; decide⟩
  · rw [Option.map_eq_some'] at h
    obtain ⟨a, ha, rfl⟩ := h
    refine ⟨?_, by dsimp only; decide⟩
    refine dictFind_ne _ _ ?_ ?_ a ha
    · intro kv _ b hb
      split at hb
      · cases hb; rfl
      · exact absurd hb (by simp)
    · intro kv hkv
      simp only [List.mem_cons, List.not_mem_nil, or_false] at hkv
      rcases hkv with rfl | rfl | rfl | rfl | rfl | rfl | rfl | rfl <;> decide

theorem remoteStage_sound (pl wt : String) (r : String × String)
    (h : remoteStage pl wt = some r) : r.1 ≠ "" ∧ r.2 ∈ all_categories := by
  unfold remoteStage at h
  rw [Option.map_eq_some'] at h
  obtain ⟨a, ha, rfl⟩ := h
  have hne : a ≠ "" := by
    refine dictFind_ne _ _ ?_ ?_ a ha
    · intro kv _ b hb
      split at hb
      · cases hb; rfl
      · exact absurd hb (by simp)
    · intro kv hkv
      simp only [List.mem_cons, List.not_mem_nil, or_false] at hkv
      rcases hkv with rfl | rfl | rfl | rfl | rfl | rfl | rfl | rfl <;> decide
  split
  · exact ⟨append_ne_empty _ _ (by
      have := str_pos_of_ne a hne
      rw [String.length_append]
      omega), by dsimp only; decide⟩
  · exact ⟨hne, by dsimp only; decide⟩

theorem securityStage_sound (pl tl : String) (r : String × String)
    (h : securityStage pl tl = some r) : r.1 ≠ "" ∧ r.2 ∈ all_categories := by
  unfold securityStage at h
  rw [Option.map_eq_some'] at h
  obtain ⟨a, ha, rfl⟩ := h
  refine ⟨?_, by dsimp only; decide⟩
  refine dictFind_ne _ _ ?_ ?_ a ha
  · intro kv _ b hb
    split at hb
    · cases hb; rfl
    · exact absurd hb (by simp)
  · intro kv hkv
    simp only [List.mem_cons, List.not_mem_nil, or_false] at hkv
    rcases hkv with rfl | rfl | rfl | rfl | rfl | rfl | rfl | rfl <;> decide

theorem editorStage_sound (pl pn wt : String) (r : String × String)
    (h : editorStage pl pn wt = some r) : r.1 ≠ "" ∧ r.2 ∈ all_categories := by
  unfold editorStage at h
  dsimp only at h
  split at h
  · split at h <;> cases h
    · exact ⟨append_ne_empty _ _ (by decide), by dsimp only; decide⟩
    · exact ⟨append_ne_empty _ _ (by decide), by dsimp only; decide⟩
  · exact absurd h (by simp)

theorem officeStage_sound (pl wt : String) (r : String × String)
    (h : officeStage pl wt = some r) : r.1 ≠ "" ∧ r.2 ∈ all_categories := by
  unfold officeStage at h
  dsimp only at h
  split at h
  · cases h; exact ⟨by decide, by decide⟩
  · split at h
    · cases h
      refine ⟨?_, by dsimp only; decide⟩
      dsimp only
      split
      · exact append_ne_empty _ _ (by decide)
      · decide
    · split at h
      · cases h
        refine ⟨?_, by dsimp only; decide⟩
        dsimp only
        split
        · exact append_ne_empty _ _ (by decide)
        · decide
      · split at h
        · cases h
          refine ⟨?_, by dsimp only; decide⟩
          dsimp only
          split
          · exact append_ne_empty _ _ (by decide)
          · decide
        · split at h
          · cases h; exact ⟨by decide, by decide⟩
          · exact absurd h (by simp)

theorem terminalStage_sound (pl wt : String) (r : String × String)
    (h : terminalStage pl wt = some r) : r.1 ≠ "" ∧ r.2 ∈ all_categories := by
  unfold terminalStage at h
  dsimp only at h
  split at h
  · split at h
    · split at h <;> cases h
      · exact ⟨append_ne_empty _ _ (by decide), by dsimp only; decide⟩
      · exact ⟨append_ne_empty _ _ (by decide), by dsimp only; decide⟩
    · cases h; exact ⟨by decide, by decide⟩
  · exact absurd h (by simp)

theorem mediaStage_sound (pl wt : String) (r : String × String)
    (h : mediaStage pl wt = some r) : r.1 ≠ "" ∧ r.2 ∈ all_categories := by
  unfold mediaStage at h
  split at h
  · split at h <;> cases h
    · exact ⟨append_ne_empty _ _ (by decide), by dsimp only; decide⟩
    · exact ⟨by decide, by decide⟩
  · split at h
    · cases h; exact ⟨by decide, by decide⟩
    · exact absurd h (by simp)

theorem systemStage_sound (pl wt : String) (r : String × String)
    (h : systemStage pl wt = some r) : r.1 ≠ "" ∧ r.2 ∈ all_categories := by
  unfold systemStage at h
  split at h
  · split at h <;> cases h
    · exact ⟨by decide, by decide⟩
    · exact ⟨append_ne_empty _ _ (by decide), by dsimp only; decide⟩
  · split at h
    · cases h; exact ⟨by decide, by decide⟩
    · exact absurd h (by simp)

theorem detect_app_type_sound (p t : String) (r : String × String)
    (h : detect_app_type p t = some r) : r.1 ≠ "" ∧ r.2 ∈ all_categories := by
  unfold detect_app_type at h
  dsimp only at h
  split at h
  · cases h; exact browserStage_sound _ _ _ (by assumption)
  · split at h
    · cases h; exact commStage_sound _ _ _ _ (by assumption)
    · split at h
      · cases h; exact remoteStage_sound _ _ _ (by assumption)
      · split at h
        · cases h; exact securityStage_sound _ _ _ (by assumption)
        · split at h
          · cases h; exact editorStage_sound _ _ _ _ (by assumption)
          · split at h
            · cases h; exact officeStage_sound _ _ _ (by assumption)
            · split at h
              · cases h; exact terminalStage_sound _ _ _ (by assumption)
              · split at h
                · cases h; exact mediaStage_sound _ _ _ (by assumption)
                · exact systemStage_sound _ _ _ h

/-- C3: for every pair of string inputs and any loaded custom rule set whose
rules carry non-empty project names (as rules built from the stored project
table's non-empty names do), `map_activity` is a total function returning a
non-empty label together with a category drawn from the fixed enumeration. -/
theorem c3_map_activity_total (rules : List ProjectRule) (process_name window_title : String)
    (hr : ∀ rule ∈ rules, rule.project_name ≠ "") :
    (map_activity rules process_name window_title).1 ≠ "" ∧
    (map_activity rules process_name window_title).2 ∈ all_categories := by
  unfold map_activity
  dsimp only
  split
  · -- Visual Studio branch
    rename_i r hr2
    revert hr2
    split
    · split
      · intro hr2
        cases hr2
        exact ⟨getD_ne_of_truthy _ (by assumption), by dsimp only; decide⟩
      · intro hr2; exact absurd hr2 (by simp)
    · intro hr2; exact absurd hr2 (by simp)
  · split
    · -- VS Code branch
      rename_i r hr2
      revert hr2
      split
      · split
        · intro hr2
          cases hr2
          exact ⟨getD_ne_of_truthy _ (by assumption), by dsimp only; decide⟩
        · intro hr2; exact absurd hr2 (by simp)
      · intro hr2; exact absurd hr2 (by simp)
    · split
      · -- custom keyword rules
        rename_i r hr2
        refine findSome?_sound _ (fun b => b.1 ≠ "" ∧ b.2 ∈ all_categories) rules ?_ r hr2
        intro rule hmem b hb
        split at hb
        · cases hb
          exact ⟨hr rule hmem, by dsimp only; decide⟩
        · exact absurd hb (by simp)
      · split
        · -- built-in app types
          rename_i r hr2
          exact detect_app_type_sound _ _ _ hr2
        · -- fallbacks
          split
          · exact ⟨append_ne_empty _ _ (by decide), by dsimp only; decide⟩
          · split
            · exact ⟨append_ne_empty _ _ (by decide), by dsimp only; decide⟩
            · exact ⟨by decide, by decide⟩

/-- Closed instantiation of `c3_map_activity_total`. -/
theorem c3_map_activity_total_witness :
    (∀ rule ∈ ([] : List ProjectRule), rule.project_name ≠ "") ∧
    (map_activity [] "chrome.exe" "GitHub - Google Chrome").1 ≠ "" ∧
    (map_activity [] "chrome.exe" "GitHub - Google Chrome").2 ∈ all_categories :=
  ⟨by simp,
   (c3_map_activity_total [] "chrome.exe" "GitHub - Google Chrome" (by simp)).1,
   (c3_map_activity_total [] "chrome.exe" "GitHub - Google Chrome" (by simp)).2⟩

/-- C9: classifying `devenv.exe` with title
`"MyApp (Running) - Microsoft Visual Studio"` yields label `"MyApp"` and
category `Development`: the first hyphen-delimited segment with the
parenthetical status suffix stripped. -/
theorem c9_ide_title_scenario :
    map_activity [] "devenv.exe" "MyApp (Running) - Microsoft Visual Studio"
      = ("MyApp", "Development") ∧
    detect_visual_studio_project "MyApp (Running) - Microsoft Visual Studio" = some "MyApp" ∧
    stripParenSuffix "MyApp (Running)" = "MyApp" := by
  refine ⟨by decide, by decide, by decide⟩

/-! ## Display-name mappings (`ProjectMapper.apply_display_mappings`) -/

/-- One row of the `project_mappings` table. -/
structure DisplayMapping where
  id : Nat
  match_type : String
  match_value : String
  display_name : String
  priority : Nat
  enabled : Bool
deriving DecidableEq, Repr

/-- `Database.get_mappings`: optional `enabled = 1` filter, then
`ORDER BY priority DESC, id ASC`. -/
def get_mappings (rows : List DisplayMapping) (enabled_only : Bool) : List DisplayMapping :=
  let rows := if enabled_only then rows.filter (fun r => r.enabled) else rows
  sortBy (fun a b => b.priority < a.priority || (a.priority = b.priority && a.id ≤ b.id)) rows

/-- A Python value that is either a `str` or the `(name, category)` tuple
that `map_activity` returns: `_track_activity` passes the tuple where
`apply_display_mappings` expects a string, so the embedding tracks the
dynamic type. -/
inductive Dyn where
  | str (s : String)
  | pair (a b : String)
deriving DecidableEq, Repr

/-- Python truthiness of a `Dyn` value (a non-empty tuple is truthy). -/
def pyTruthyDyn : Dyn → Bool
  | .str s => s ≠ ""
  | .pair _ _ => true

/-- Pass 1 of `apply_display_mappings`: the first enabled `process`-type
mapping whose value occurs (case-insensitively) in the process name. -/
def findAppName (mappings : List DisplayMapping) (process_name : String) : Option String :=
  mappings.findSome? (fun m =>
    if m.match_type = "process" then
      if process_name ≠ "" && inStr (lowerStr m.match_value) (lowerStr process_name) then
        some m.display_name
      else none
    else none)

/-- Pass 2 of `apply_display_mappings` on a dynamic `project_name`: the
first `project`-type mapping evaluates `project_name.lower()`, which raises
`AttributeError` when the argument is the tuple (tuples are truthy, so the
short-circuit `project_name and ...` does not save it). -/
def findProjectMapping (mappings : List DisplayMapping) (project_name : Dyn) :
    Except String Dyn :=
  match mappings with
  | [] => Except.ok project_name
  | m :: rest =>
    if m.match_type = "project" then
      match project_name with
      | .pair _ _ => Except.error "AttributeError"
      | .str s =>
        if s ≠ "" && inStr (lowerStr m.match_value) (lowerStr s) then
          Except.ok (.str m.display_name)
        else findProjectMapping rest project_name
    else findProjectMapping rest project_name

/-- Pass 2 restricted to string labels (the intended use): the first
matching `project` mapping's display name, defaulting to the label. -/
def findProjectName (mappings : List DisplayMapping) (label : String) : String :=
  match mappings with
  | [] => label
  | m :: rest =>
    if m.match_type = "project" then
      if label ≠ "" && inStr (lowerStr m.match_value) (lowerStr label) then m.display_name
      else findProjectName rest label
    else findProjectName rest label

/-- Pass 3 of `apply_display_mappings`: the first `window`-type mapping
whose value occurs in the window title overrides the project name. -/
def findWindowMapping (mappings : List DisplayMapping) (window_title : String) : Option String :=
  mappings.findSome? (fun m =>
    if m.match_type = "window" then
      if window_title ≠ "" && inStr (lowerStr m.match_value) (lowerStr window_title) then
        some m.display_name
      else none
    else none)

/-- The project name after passes 2 and 3 for a string label: the first
matching `project` mapping's display name (defaulting to the label), then
the window override. -/
def resolved_project (mappings : List DisplayMapping) (label window_title : String) : String :=
  match findWindowMapping mappings window_title with
  | some d => d
  | none => findProjectName mappings label

/-- The final combine step of `apply_display_mappings`: `"{app} - {project}"`
when both resolved and differ case-insensitively, collapsing duplicates;
`mapped_project.lower()` raises when the tuple reached this point. -/
def combineStep (app_name : Option String) (mapped_project : Dyn) : Except String Dyn :=
  match app_name with
  | some app =>
    if app ≠ "" && pyTruthyDyn mapped_project then
      match mapped_project with
      | .pair _ _ => Except.error "AttributeError"
      | .str s =>
        if lowerStr app ≠ lowerStr s then Except.ok (.str (app ++ " - " ++ s))
        else Except.ok (.str app)
    else if app ≠ "" then Except.ok (.str app)
    else Except.ok mapped_project
  | none => Except.ok mapped_project

/-- `ProjectMapper.apply_display_mappings`: the three passes and the final
combine step, on a dynamic project-name argument. -/
def apply_display_mappings (mappings : List DisplayMapping) (project_name : Dyn)
    (process_name window_title : String) : Except String Dyn :=
  match findProjectMapping mappings project_name with
  | Except.error e => Except.error e
  | Except.ok mapped0 =>
    combineStep (findAppName mappings process_name)
      (match findWindowMapping mappings window_title with
       | some d => Dyn.str d
       | none => mapped0)

theorem findProjectMapping_str (mappings : List DisplayMapping) (label : String) :
    findProjectMapping mappings (.str label) = Except.ok (.str (findProjectName mappings label)) := by
  induction mappings with
  | nil => rfl
  | cons m rest ih =>
    unfold findProjectMapping findProjectName
    by_cases ht : m.match_type = "project"
    · rw [if_pos ht, if_pos ht]
      dsimp only
      split
      · rfl
      · exact ih
    · rw [if_neg ht, if_neg ht]
      exact ih

/-- The scenario mapping rows: process `devenv.exe → "Visual Studio"` and
project `MyApp123 → "Client Site"`, both enabled. -/
def c6_mappings : List DisplayMapping :=
  [{ id := 1, match_type := "process", match_value := "devenv.exe",
     display_name := "Visual Studio", priority := 10, enabled := true },
   { id := 2, match_type := "project", match_value := "MyApp123",
     display_name := "Client Site", priority := 5, enabled := true }]

/-- C6: the remapper's combine step on a string label.  With `app` the
process-mapping result and `project` the label after the project and
window passes: both resolved and different case-insensitively gives
`"app - project"`; equal case-insensitively gives `app`; only `app`
resolved (empty project) gives `app`; otherwise the result is `project`.
In particular the scenario `devenv.exe → "Visual Studio"`,
`MyApp123 → "Client Site"` remaps label `"MyApp123"` to
`"Visual Studio - Client Site"`. -/
theorem c6_remap_combine (mappings : List DisplayMapping)
    (label process_name window_title : String) :
    (∀ app, findAppName mappings process_name = some app → app ≠ "" →
      (resolved_project mappings label window_title ≠ "" →
        lowerStr app ≠ lowerStr (resolved_project mappings label window_title) →
        apply_display_mappings mappings (.str label) process_name window_title
          = Except.ok (.str (app ++ " - " ++ resolved_project mappings label window_title))) ∧
      (resolved_project mappings label window_title ≠ "" →
        lowerStr app = lowerStr (resolved_project mappings label window_title) →
        apply_display_mappings mappings (.str label) process_name window_title
          = Except.ok (.str app)) ∧
      (resolved_project mappings label window_title = "" →
        apply_display_mappings mappings (.str label) process_name window_title
          = Except.ok (.str app))) ∧
    ((findAppName mappings process_name = none ∨ findAppName mappings process_name = some "") →
      apply_display_mappings mappings (.str label) process_name window_title
        = Except.ok (.str (resolved_project mappings label window_title))) ∧
    apply_display_mappings (get_mappings c6_mappings true) (.str "MyApp123")
        "devenv.exe" "MyApp123 - Microsoft Visual Studio"
      = Except.ok (.str "Visual Studio - Client Site") := by
  have hbase : apply_display_mappings mappings (.str label) process_name window_title
      = combineStep (findAppName mappings process_name)
          (Dyn.str (resolved_project mappings label window_title)) := by
    unfold apply_display_mappings
    rw [findProjectMapping_str]
    unfold resolved_project
    cases findWindowMapping mappings window_title <;> rfl
  refine ⟨?_, ?_, ?_⟩
  · intro app happ hne
    rw [hbase, happ]
    unfold combineStep
    dsimp only
    refine ⟨?_, ?_, ?_⟩
    · intro hp hdiff
      rw [if_pos (by simp [pyTruthyDyn, hne, hp]), if_pos hdiff]
    · intro hp heqCI
      rw [if_pos (by simp [pyTruthyDyn, hne, hp]), if_neg (by simp [heqCI])]
    · intro hp
      rw [if_neg (by simp [pyTruthyDyn, hp]), if_pos hne]
  · intro happ
    rw [hbase]
    rcases happ with h | h <;> rw [h]
    · rfl
    · unfold combineStep
      dsimp only
      rw [if_neg (by simp), if_neg (by simp)]
  · decide

/-- Closed instantiation of `c6_remap_combine` at the scenario input,
discharging the case-1 hypotheses concretely. -/
theorem c6_remap_combine_witness :
    findAppName (get_mappings c6_mappings true) "devenv.exe" = some "Visual Studio" ∧
    resolved_project (get_mappings c6_mappings true) "MyApp123"
        "MyApp123 - Microsoft Visual Studio" = "Client Site" ∧
    apply_display_mappings (get_mappings c6_mappings true) (.str "MyApp123")
        "devenv.exe" "MyApp123 - Microsoft Visual Studio"
      = Except.ok (.str "Visual Studio - Client Site") := by
  refine ⟨by decide, by decide, ?_⟩
  have h := ((c6_remap_combine (get_mappings c6_mappings true) "MyApp123"
      "devenv.exe" "MyApp123 - Microsoft Visual Studio").1 "Visual Studio"
      (by decide) (by decide)).1 (by decide) (by decide)
  rw [show resolved_project (get_mappings c6_mappings true) "MyApp123"
      "MyApp123 - Microsoft Visual Studio" = "Client Site" from by decide] at h
  exact h

/-! ## The per-tick recording path (`activity_monitor.py`, claim C2) -/

/-- Match one occurrence of `\s+and\s+\d+\s+more\s+pages?\s*` (the
unanchored, global artifact scrub of `_clean_window_title`), returning the
remainder after the match. -/
def morePagesAt (l : List Char) : Option (List Char) :=
  let w1 := l.takeWhile isPySpace
  if w1.isEmpty then none
  else
    let r := l.dropWhile isPySpace
    if listStartsCI "and".data r then
      let r := r.drop 3
      let w2 := r.takeWhile isPySpace
      let r := r.dropWhile isPySpace
      let ds := r.takeWhile (fun c => c.isDigit)
      if w2.isEmpty || ds.isEmpty then none
      else
        let r := r.dropWhile (fun c => c.isDigit)
        let w3 := r.takeWhile isPySpace
        let r := r.dropWhile isPySpace
        if w3.isEmpty then none
        else if listStartsCI "more".data r then
          let r := r.drop 4
          let w4 := r.takeWhile isPySpace
          let r := r.dropWhile isPySpace
          if w4.isEmpty then none
          else if listStartsCI "page".data r then
            let r := r.drop 4
            let r := match r with
              | c :: rest => if c = 's' || c = 'S' then rest else r
              | [] => r
            some (r.dropWhile isPySpace)
          else none
        else none
    else none

/-- Global substitution of the artifact by a single space
(`re.sub(r'\s+and\s+\d+\s+more\s+pages?\s*', ' ', title)`). -/
def cleanSubGo : Nat → List Char → List Char
  | 0, l => l
  | fuel + 1, l =>
    match morePagesAt l with
    | some rest => ' ' :: cleanSubGo fuel rest
    | none =>
      match l with
      | [] => []
      | c :: cs => c :: cleanSubGo fuel cs

/-- `ActivityMonitor._clean_window_title`: scrub the tab-count artifact,
drop a browser-name suffix (the second Edge entry carries the mojibake
bytes `â€‹` present in this source file), and collapse whitespace. -/
def clean_window_title (title : String) : String :=
  if title = "" then title
  else
    let title := String.mk (cleanSubGo (title.data.length + 1) title.data)
    let title :=
      match ([" - Microsoft Edge", " - Microsoftâ€‹ Edge",
              " - Google Chrome", " - Mozilla Firefox",
              " - Brave", " - Opera"].find? (fun sfx => endsWithStr sfx title)) with
      | some sfx => String.mk (title.data.take (title.length - sfx.length))
      | none => title
    pyStrip (joinWords title)

/-- The row handed to `Database.log_activity` by one tick.  `project_name`
is a dynamic value because `_track_activity` passes `map_activity`'s
`(name, category)` tuple where a string is expected. -/
structure LoggedRow where
  timestamp : String
  window_title : String
  process_name : String
  project_name : Option Dyn
  category : Option String
  is_active : Bool
  duration_seconds : Nat
  project_tag : Option String
deriving DecidableEq, Repr

/-- `Database.log_activity`: builds the inserted row; `category` and
`project_tag` default to NULL when the caller does not pass them. -/
def log_activity_row (timestamp window_title process_name : String)
    (project_name : Option Dyn) (category : Option String) (is_active : Bool)
    (duration_seconds : Nat) (project_tag : Option String) : LoggedRow :=
  { timestamp := timestamp, window_title := window_title, process_name := process_name
    project_name := project_name, category := category, is_active := is_active
    duration_seconds := duration_seconds, project_tag := project_tag }

/-- `ActivityMonitor._track_activity` for one tick: computes
`is_active = not is_idle and not camera_away`, cleans the title, maps the
activity when `visual_studio_solution_detection` is on, feeds the result
(the tuple!) through `apply_display_mappings`, and calls `log_activity`
with keyword arguments `window_title`, `process_name`, `project_name`,
`is_active` and `duration_seconds` only — never `category` or
`project_tag`.  An `AttributeError` raised inside the remapper propagates
(the tick logs an error and appends nothing). -/
def track_activity (rules : List ProjectRule) (mappings : List DisplayMapping)
    (vs_detection : Bool) (polling_interval_seconds : Nat) (ts : String)
    (window_title process_name : String) (is_idle camera_away : Bool) :
    Except String LoggedRow :=
  let is_active := !is_idle && !camera_away
  let clean_title := clean_window_title window_title
  let clean_title :=
    if clean_title = "" || ["program manager", ""].contains (lowerStr clean_title) then
      "Desktop"
    else clean_title
  let project : Option Dyn :=
    if vs_detection then
      some (Dyn.pair (map_activity rules process_name window_title).1
                     (map_activity rules process_name window_title).2)
    else none
  match project with
  | some p =>
    match apply_display_mappings mappings p process_name window_title with
    | Except.error e => Except.error e
    | Except.ok p2 =>
      Except.ok (log_activity_row ts clean_title process_name (some p2) none
        is_active polling_interval_seconds none)
  | none =>
    Except.ok (log_activity_row ts clean_title process_name none none
      is_active polling_interval_seconds none)

/-- The default mapping rows seeded by `Database.seed_default_mappings`
(insertion order gives ids 1..14, all enabled). -/
def seed_default_mappings : List DisplayMapping :=
  [{ id := 1, match_type := "process", match_value := "devenv.exe", display_name := "Visual Studio", priority := 10, enabled := true },
   { id := 2, match_type := "process", match_value := "Code.exe", display_name := "VS Code", priority := 10, enabled := true },
   { id := 3, match_type := "process", match_value := "code", display_name := "VS Code", priority := 10, enabled := true },
   { id := 4, match_type := "process", match_value := "chrome.exe", display_name := "Chrome", priority := 5, enabled := true },
   { id := 5, match_type := "process", match_value := "firefox.exe", display_name := "Firefox", priority := 5, enabled := true },
   { id := 6, match_type := "process", match_value := "msedge.exe", display_name := "Edge", priority := 5, enabled := true },
   { id := 7, match_type := "process", match_value := "OUTLOOK.EXE", display_name := "Outlook", priority := 5, enabled := true },
   { id := 8, match_type := "process", match_value := "Teams.exe", display_name := "Teams", priority := 5, enabled := true },
   { id := 9, match_type := "process", match_value := "slack.exe", display_name := "Slack", priority := 5, enabled := true },
   { id := 10, match_type := "process", match_value := "WINWORD.EXE", display_name := "Word", priority := 5, enabled := true },
   { id := 11, match_type := "process", match_value := "EXCEL.EXE", display_name := "Excel", priority := 5, enabled := true },
   { id := 12, match_type := "process", match_value := "POWERPNT.EXE", display_name := "PowerPoint", priority := 5, enabled := true },
   { id := 13, match_type := "process", match_value := "notepad.exe", display_name := "Notepad", priority := 3, enabled := true },
   { id := 14, match_type := "process", match_value := "explorer.exe", display_name := "Explorer", priority := 3, enabled := true }]

/-- C2: the recording path never stores the classifier's category.  For the
sample `devenv.exe` / `"MyApp - Microsoft Visual Studio"` (active, default
config) the classifier yields category `"Development"`, yet with no display
mappings the appended row has `category = NULL` (and its `project_name` is
the raw `(label, category)` tuple, not a string); with the seeded default
mappings the tick does not even append a row — the remapper raises
`AttributeError` calling `.lower()` on the tuple. -/
theorem c2_category_never_recorded :
    (map_activity [] "devenv.exe" "MyApp - Microsoft Visual Studio").2 = "Development" ∧
    track_activity [] [] true 5 "2025-03-10 09:00:00"
        "MyApp - Microsoft Visual Studio" "devenv.exe" false false
      = Except.ok (log_activity_row "2025-03-10 09:00:00"
          "MyApp - Microsoft Visual Studio" "devenv.exe"
          (some (Dyn.pair "MyApp" "Development")) none true 5 none) ∧
    track_activity [] (get_mappings seed_default_mappings true) true 5
        "2025-03-10 09:00:00" "MyApp - Microsoft Visual Studio" "devenv.exe" false false
      = Except.error "AttributeError" := by
  refine ⟨by decide, by decide, by decide⟩
